import Mathlib

/-!
# Verification of the eterna-cards inventory core

A shallow embedding of the inventory reconciliation engine of the
eterna-cards repository (`src/lib/db.ts`): the product matcher
(`normalizeTextForMatch`, `computeTokenSimilarity`, exact-SKU and fuzzy
matching inside `syncInventoryFromPurchaseOrder`), the transit ledger
(`syncInventoryFromPurchaseOrder`, FIFO consumption inside
`receiveStockForProduct`), and the weighted-average cost update.

Modelling conventions:

* JavaScript numbers are modelled by `ℚ`: every `ℚ` value corresponds to a
  finite JS number, and the arithmetic the claims exercise (+, -, *, /, min,
  comparisons, decimal rounding via `toFixed(4)`) is modelled exactly.
  `Number(x.toFixed(4))` is modelled as exact decimal rounding to 4 places
  (`roundTo4`); binary-float representation error is outside the model.
  The special values `NaN`/`±Infinity` are not representable in `ℚ`; where a
  claim turns on them (the sanitization in `syncInventoryFromPurchaseOrder`)
  a dedicated `JSNum` type models the full JS comparison semantics for the
  exact source lines involved.
* Identifiers (`crypto.randomUUID()` values) are opaque strings supplied by
  the caller (`freshInvId`, `genId`); timestamps (`new Date().toISOString()`
  and the `new Date(s).getTime()` used for sorting) are modelled as `Nat`
  epoch values supplied as `now`, compared numerically exactly as the
  source's sort comparator does.
* The lowdb in-memory state `database.data` is the explicit `Db` value; each
  operation maps a `Db` to a `Db` (plus its return value or error).
  `database.write()` persists the whole in-memory state and is only reached
  on the success path of `receiveStockForProduct`; mutation of records held
  by reference (matched products, filtered transit records, the found
  inventory record) is rendered as replacement at the corresponding position
  of the owning list.
-/

set_option maxRecDepth 10000

namespace EternaCards

/-- `Number(x.toFixed(4))` on a finite non-negative value: exact rounding to
4 decimal places, half upward (which on the non-negative values this code
feeds it coincides with `toFixed`'s half-away-from-zero). -/
def roundTo4 (q : ℚ) : ℚ := ((q * 10000 + 1 / 2).floor : ℚ) / 10000

instance {ε α : Type} [DecidableEq ε] [DecidableEq α] : DecidableEq (Except ε α) := fun x y =>
  match x, y with
  | .error e, .error f =>
    if h : e = f then .isTrue (by rw [h]) else .isFalse (by intro hc; cases hc; exact h rfl)
  | .error _, .ok _ => .isFalse (by intro hc; cases hc)
  | .ok _, .error _ => .isFalse (by intro hc; cases hc)
  | .ok a, .ok b =>
    if h : a = b then .isTrue (by rw [h]) else .isFalse (by intro hc; cases hc; exact h rfl)

/-! ## Data model (`src/lib/db.ts` interfaces) -/

/-- `Supplier` record. -/
structure Supplier where
  id : String
  name : String
  address : Option String
  email : Option String
  phone : Option String
  vatNumber : Option String
  createdAt : Nat
deriving DecidableEq, Repr

/-- `PurchaseOrder` record. -/
structure PurchaseOrder where
  id : String
  supplierId : String
  invoiceNumber : Option String
  invoiceDate : Option String
  currency : String
  paymentTerms : Option String
  createdAt : Nat
deriving DecidableEq, Repr

/-- `POLine` record. -/
structure POLine where
  id : String
  purchaseOrderId : String
  description : String
  supplierSku : Option String
  quantity : ℚ
  unitCostExVAT : ℚ
  lineTotalExVAT : ℚ
deriving DecidableEq, Repr

/-- `Product` record. -/
structure Product where
  id : String
  name : String
  primarySku : Option String
  supplierSku : Option String
  barcodes : List String
  aliases : List String
  supplierId : Option String
  category : Option String
  tags : List String
  createdAt : Nat
  updatedAt : Nat
deriving DecidableEq, Repr

/-- `InventoryRecord` record. -/
structure InventoryRecord where
  id : String
  productId : String
  quantityOnHand : ℚ
  averageCostGBP : ℚ
  lastUpdated : Nat
deriving DecidableEq, Repr

/-- `TransitStatus` union type. -/
inductive TransitStatus where
  | in_transit
  | partially_received
  | received
deriving DecidableEq, Repr

/-- `TransitRecord` record. -/
structure TransitRecord where
  id : String
  productId : String
  purchaseOrderId : String
  poLineId : String
  supplierId : String
  quantity : ℚ
  remainingQuantity : ℚ
  unitCostGBP : ℚ
  status : TransitStatus
  createdAt : Nat
  updatedAt : Nat
deriving DecidableEq, Repr

/-- `Invoice` record. -/
structure Invoice where
  id : String
  purchaseOrderId : String
  supplierId : String
  invoiceNumber : Option String
  invoiceDate : Option String
  currency : String
  createdAt : Nat
deriving DecidableEq, Repr

/-- `Task` record. -/
structure Task where
  id : String
  title : String
  completed : Bool
  createdAt : Nat
  completedAt : Option Nat
deriving DecidableEq, Repr

/-- `DatabaseSchema`: the full lowdb in-memory state `database.data`. -/
structure Db where
  suppliers : List Supplier
  purchaseOrders : List PurchaseOrder
  poLines : List POLine
  products : List Product
  inventory : List InventoryRecord
  transit : List TransitRecord
  invoices : List Invoice
  tasks : List Task
deriving DecidableEq, Repr

/-- `createDefaultDatabase()`: every collection empty. -/
def createDefaultDatabase : Db :=
  { suppliers := [], purchaseOrders := [], poLines := [], products := []
    inventory := [], transit := [], invoices := [], tasks := [] }

/-! ## Receiving stock (`receiveStockForProduct`) -/

/-- The transit records `receiveStockForProduct` consumes from:
`t.productId === productId && t.remainingQuantity > 0` (line 733). -/
def isReceivable (productId : String) (t : TransitRecord) : Bool :=
  decide (t.productId = productId ∧ 0 < t.remainingQuantity)

/-- One insertion step of the stable ascending sort on `createdAt`
(the JS `sort((a, b) => getTime(a.createdAt) - getTime(b.createdAt))`,
line 734; `Array.prototype.sort` is stable). -/
def insertByCreatedAt (x : TransitRecord) : List TransitRecord → List TransitRecord
  | [] => [x]
  | y :: ys =>
    if x.createdAt < y.createdAt then x :: y :: ys else y :: insertByCreatedAt x ys

/-- Stable sort of transit records ascending by `createdAt` (line 734). -/
def sortByCreatedAt (l : List TransitRecord) : List TransitRecord :=
  l.foldl (fun acc x => insertByCreatedAt x acc) []

/-- The state of the FIFO consumption loop of `receiveStockForProduct`
(lines 740-762) after it finishes: the accumulators, the final value of
`remainingToReceive`, the visited records (mutated in place in the source,
here returned positionally), and `affectedTransitIds`. -/
structure FifoWalkResult where
  receivedQuantity : ℚ
  incomingTotalValue : ℚ
  remainingToReceive : ℚ
  records : List TransitRecord
  affectedTransitIds : List String
deriving DecidableEq, Repr

/-- The FIFO consumption loop of `receiveStockForProduct` (lines 745-762):
walk the sorted records; stop when nothing is left to receive; skip
non-positive remainders; otherwise take `min(remainingToReceive, available)`
from the record, accumulate value at the record's (non-negative-clamped)
unit cost, and update the record's remainder, status, and timestamp. -/
def fifoWalk (now : Nat) (remainingToReceive : ℚ) :
    List TransitRecord → FifoWalkResult
  | [] =>
    { receivedQuantity := 0, incomingTotalValue := 0
      remainingToReceive := remainingToReceive, records := [], affectedTransitIds := [] }
  | t :: rest =>
    if remainingToReceive ≤ 0 then
      { receivedQuantity := 0, incomingTotalValue := 0
        remainingToReceive := remainingToReceive, records := t :: rest, affectedTransitIds := [] }
    else if t.remainingQuantity ≤ 0 then
      let w := fifoWalk now remainingToReceive rest
      { w with records := t :: w.records }
    else
      let take := min remainingToReceive t.remainingQuantity
      let unitCost := if 0 ≤ t.unitCostGBP then t.unitCostGBP else 0
      let t' : TransitRecord :=
        { t with
          remainingQuantity := t.remainingQuantity - take
          status := if 0 < t.remainingQuantity - take then .partially_received else .received
          updatedAt := now }
      let w := fifoWalk now (remainingToReceive - take) rest
      { receivedQuantity := take + w.receivedQuantity
        incomingTotalValue := take * unitCost + w.incomingTotalValue
        remainingToReceive := w.remainingToReceive
        records := t' :: w.records
        affectedTransitIds := t.id :: w.affectedTransitIds }

/-- Write the loop's in-place mutations back into the transit collection.
In the source the filtered, sorted list holds references into
`database.data.transit`, so exactly the records passing the receivable
filter are mutated; ids are `crypto.randomUUID()` values, distinct per
record, so a receivable record's new value is the walk's output with its
id. -/
def updateReceivable (productId : String) (updated : List TransitRecord)
    (t : TransitRecord) : TransitRecord :=
  if isReceivable productId t then (updated.find? fun u => u.id = t.id).getD t
  else t

def applyTransitUpdates (productId : String) (updated : List TransitRecord)
    (transit : List TransitRecord) : List TransitRecord :=
  transit.map (updateReceivable productId updated)

/-- `ReceiveStockResult` record. -/
structure ReceiveStockResult where
  productId : String
  receivedQuantity : ℚ
  remainingRequestedQuantity : ℚ
  newQuantityOnHand : ℚ
  newAverageCostGBP : ℚ
  affectedTransitIds : List String
deriving DecidableEq, Repr

/-- The error kinds `receiveStockForProduct` throws, as named by the spec:
`validationError` for 'productId is required' / 'Quantity must be a positive
number', `notFoundError` for 'Product not found', `insufficientTransitError`
for both 'No in-transit quantity available' (line 737) and the defensive
'Unable to receive stock' (line 765). -/
inductive ReceiveError where
  | validationError
  | notFoundError
  | insufficientTransitError
deriving DecidableEq, Repr

/-- The product's inventory record as `receiveStockForProduct` finds it
(line 720): `database.data.inventory.find((inv) => inv.productId ===
productId)`. -/
def storedInventory (db : Db) (productId : String) : Option InventoryRecord :=
  db.inventory.find? fun inv => inv.productId = productId

/-- Lines 732-734: the product's positive-remainder transit records, sorted
ascending by creation time. -/
def receivableSorted (db : Db) (productId : String) : List TransitRecord :=
  sortByCreatedAt (db.transit.filter (isReceivable productId))

/-- `receiveStockForProduct` (lines 693-791). Returns the in-memory state
`database.data` after the call together with the result or the thrown
error. `freshInvId` stands for the `crypto.randomUUID()` of a lazily
created inventory record, `now` for `new Date().toISOString()`. The
`typeof quantity !== 'number' || !Number.isFinite(quantity)` parts of the
quantity guard are inherently satisfied by `ℚ` arguments. `database.write()`
runs only on the success path; on every error path the returned `Db` is the
in-memory state at the throw site. -/
def receiveStockForProduct (db : Db) (freshInvId : String) (now : Nat)
    (productId : String) (quantity : ℚ) :
    Db × Except ReceiveError ReceiveStockResult :=
  if productId = "" then (db, .error .validationError)
  else if quantity ≤ 0 then (db, .error .validationError)
  else if (db.products.find? fun p => p.id = productId).isNone then
    (db, .error .notFoundError)
  else
    let invFound := storedInventory db productId
    let inventoryRecord := invFound.getD
      { id := freshInvId, productId := productId, quantityOnHand := 0
        averageCostGBP := 0, lastUpdated := now }
    let invIdx :=
      if invFound.isSome then db.inventory.findIdx fun inv => inv.productId = productId
      else db.inventory.length
    let inv1 :=
      if invFound.isSome then db.inventory else db.inventory ++ [inventoryRecord]
    let db1 := { db with inventory := inv1 }
    let transitRecords := receivableSorted db productId
    if transitRecords = [] then (db1, .error .insufficientTransitError)
    else
      let w := fifoWalk now quantity transitRecords
      let db2 := { db1 with transit := applyTransitUpdates productId w.records db.transit }
      if w.receivedQuantity ≤ 0 then (db2, .error .insufficientTransitError)
      else
        let currentOnHand := inventoryRecord.quantityOnHand
        let currentAvg := inventoryRecord.averageCostGBP
        let currentValue := currentOnHand * currentAvg
        let newOnHand := currentOnHand + w.receivedQuantity
        let newAvg :=
          if 0 < newOnHand then roundTo4 ((currentValue + w.incomingTotalValue) / newOnHand)
          else 0
        let newInv :=
          { inventoryRecord with
            quantityOnHand := newOnHand, averageCostGBP := newAvg, lastUpdated := now }
        let db3 := { db2 with inventory := db2.inventory.set invIdx newInv }
        (db3, .ok
          { productId := productId
            receivedQuantity := w.receivedQuantity
            remainingRequestedQuantity := w.remainingToReceive
            newQuantityOnHand := newOnHand
            newAverageCostGBP := newAvg
            affectedTransitIds := w.affectedTransitIds })

/-! ## Text normalization and similarity (`normalizeTextForMatch`,
`computeTokenSimilarity`, lines 492-510) -/

/-- The stop-word list of `normalizeTextForMatch` (line 497). -/
def stopWords : List String :=
  ["the", "and", "with", "card", "cards", "booster", "box", "boxes", "ver", "version"]

/-- A character kept by the regex `[^a-z0-9\s]` after `toLowerCase()`. -/
def isKeptChar (c : Char) : Bool :=
  (decide ('a' ≤ c) && decide (c ≤ 'z')) || (decide ('0' ≤ c) && decide (c ≤ '9'))

/-- `normalizeTextForMatch` (lines 492-498): lowercase, collapse every
character outside `[a-z0-9]` to a separator (the source replaces
non-alphanumeric non-whitespace by a space and then splits on whitespace
runs, which yields the same tokens), and keep tokens of length at least 3
that are not stop words.  Splitting on single spaces can produce empty
fragments where the source's `split(/\s+/)` collapses runs, but those
fragments fail the length filter, so the token lists agree. -/
def normalizeTextForMatch (text : String) : List String :=
  let cleaned := String.mk (text.toLower.data.map fun c => if isKeptChar c then c else ' ')
  (cleaned.splitOn " ").filter fun token =>
    decide (3 ≤ token.length) && !(stopWords.contains token)

/-- `computeTokenSimilarity` (lines 500-510): the Jaccard index of the
de-duplicated token sets (`List.dedup` has the cardinality of the JS `Set`),
0 when either input list is empty. -/
def computeTokenSimilarity (aTokens bTokens : List String) : ℚ :=
  if aTokens = [] ∨ bTokens = [] then 0
  else
    let aSet := aTokens.dedup
    let bSet := bTokens.dedup
    let intersection := (aSet.filter fun token => bSet.contains token).length
    let union := (aTokens ++ bTokens).dedup.length
    if union = 0 then 0 else (intersection : ℚ) / (union : ℚ)

/-! ## Product matching inside `syncInventoryFromPurchaseOrder`
(lines 545-620) -/

/-- The exact-match predicate of step 1 (lines 550-555): case-insensitive
equality of the line's trimmed supplier SKU against primary SKU, supplier
SKU, or any barcode. -/
def exactSkuMatch (skuLower : String) (p : Product) : Bool :=
  p.primarySku.any (fun s => s.toLower = skuLower) ||
  p.supplierSku.any (fun s => s.toLower = skuLower) ||
  p.barcodes.any (fun code => code.toLower = skuLower)

/-- Step 1 of the matcher: index of the first product matching the SKU
exactly (`products.find(...)`, line 550). -/
def exactMatchIdx (products : List Product) (skuLower : String) : Option Nat :=
  products.findIdx? (exactSkuMatch skuLower)

/-- The similarity score of one candidate (lines 563-574): similarity of the
line tokens against the candidate's name tokens, improved by each alias's
tokens (the `aliases.length > 0` guard in the source is redundant over an
empty alias list). -/
def candidateScore (lineTokens : List String) (p : Product) : ℚ :=
  p.aliases.foldl
    (fun score a =>
      let aliasScore := computeTokenSimilarity lineTokens (normalizeTextForMatch a)
      if score < aliasScore then aliasScore else score)
    (computeTokenSimilarity lineTokens (normalizeTextForMatch p.name))

/-- The fuzzy scan of step 2 (lines 561-580): track the best score and the
index of the candidate that attained it, updating only on a strictly larger
score (`score > bestScore`), so the first-found candidate wins ties. -/
def fuzzyScan (lineTokens : List String) :
    List Product → Nat → ℚ → Option Nat → ℚ × Option Nat
  | [], _, best, bestIdx => (best, bestIdx)
  | p :: ps, i, best, bestIdx =>
    let score := candidateScore lineTokens p
    if best < score then fuzzyScan lineTokens ps (i + 1) score (some i)
    else fuzzyScan lineTokens ps (i + 1) best bestIdx

/-- The fuzzy scan started as the source starts it: `bestScore = 0`,
`matchedProduct = null`. -/
def bestFuzzy (lineTokens : List String) (products : List Product) : ℚ × Option Nat :=
  fuzzyScan lineTokens products 0 0 none

/-- Step 1 for a whole line: the exact phase runs only when the line has a
(trimmed, non-blank) supplier SKU (`if (supplierSku)`, line 547). -/
def exactPhase (products : List Product) : Option String → Option Nat
  | some sku => exactMatchIdx products sku.toLower
  | none => none

/-- The whole matcher for one line (lines 545-586): exact SKU match first;
only when it yields nothing, the fuzzy scan, rejected below the 0.5
threshold (line 583). Returns the index of the matched product in the
catalog, or `none` when a new product must be created. -/
def matchLineIdx (products : List Product) (rawDescription : String)
    (supplierSku : Option String) : Option Nat :=
  match exactPhase products supplierSku with
  | some i => some i
  | none =>
    let best := bestFuzzy (normalizeTextForMatch rawDescription) products
    if best.1 < 1 / 2 then none else best.2

/-- The in-place mutation of a matched product (lines 592-600): append the
raw description to the aliases when absent (exact string containment),
attach the supplier when none is linked, refresh the update timestamp. -/
def applyMatchSideEffects (rawDescription supplierId : String) (now : Nat)
    (p : Product) : Product :=
  { p with
    aliases :=
      if p.aliases.contains rawDescription then p.aliases
      else p.aliases ++ [rawDescription]
    supplierId := match p.supplierId with
      | none => some supplierId
      | some s => some s
    updatedAt := now }

/-- The product created for an unmatched line (lines 603-616). -/
def newProductFromLine (id rawDescription : String) (supplierSku : Option String)
    (supplierId : String) (now : Nat) : Product :=
  { id := id, name := rawDescription, primarySku := supplierSku
    supplierSku := supplierSku, barcodes := [], aliases := [rawDescription]
    supplierId := some supplierId, category := none, tags := []
    createdAt := now, updatedAt := now }

/-- Replace the element at one position (the mutation of a record held by
reference into its owning array). -/
def modifyAt (f : Product → Product) : List Product → Nat → List Product
  | [], _ => []
  | p :: ps, 0 => f p :: ps
  | p :: ps, n + 1 => p :: modifyAt f ps n

/-- The id of the product at a position of the catalog (total; positions
coming from the matcher are always in bounds). -/
def productIdAt (products : List Product) (i : Nat) : String :=
  match products.get? i with
  | some p => p.id
  | none => ""

/-! ## Purchase-order sync (`syncInventoryFromPurchaseOrder`,
lines 513-657) -/

/-- The loop state of `syncInventoryFromPurchaseOrder`: the two collections
it mutates, its three counters, and the supply of fresh
`crypto.randomUUID()` values (`genId` applied to successive values of
`fresh`). -/
structure SyncState where
  products : List Product
  transit : List TransitRecord
  productsCreated : Nat
  productsMatched : Nat
  transitCreated : Nat
  fresh : Nat
deriving DecidableEq, Repr

/-- Lines 591-620: count a match and mutate the matched product in place, or
create and append a new product. Returns the new state and the id of the
resolved product. -/
def resolveProduct (genId : Nat → String) (now : Nat) (supplierId : String)
    (st : SyncState) (rawDescription : String) (supplierSku : Option String) :
    SyncState × String :=
  match matchLineIdx st.products rawDescription supplierSku with
  | some i =>
    ({ st with
        products := modifyAt (applyMatchSideEffects rawDescription supplierId now) st.products i
        productsMatched := st.productsMatched + 1 },
     productIdAt st.products i)
  | none =>
    let pid := genId st.fresh
    ({ st with
        products := st.products ++ [newProductFromLine pid rawDescription supplierSku supplierId now]
        productsCreated := st.productsCreated + 1
        fresh := st.fresh + 1 },
     pid)

/-- Line 623: `typeof line.quantity === 'number' && line.quantity > 0 ?
line.quantity : 0`, on the finite values `ℚ` models. -/
def sanitizeQuantity (q : ℚ) : ℚ := if 0 < q then q else 0

/-- Lines 624-626: `typeof c === 'number' && c >= 0 ? Number(c.toFixed(4)) :
0`, on the finite values `ℚ` models. -/
def sanitizeUnitCost (c : ℚ) : ℚ := if 0 ≤ c then roundTo4 c else 0

/-- `line.supplierSku?.trim() || null` (line 543): trim, and collapse a
missing or blank SKU to null. -/
def trimOptSku : Option String → Option String
  | none => none
  | some s => let t := s.trim; if t = "" then none else some t

/-- One iteration of the `for (const line of params.poLines)` loop
(lines 537-648): skip blank descriptions; resolve the product; sanitize
quantity and cost; skip non-positive quantities; otherwise append the
transit record and count it. -/
def processLine (genId : Nat → String) (now : Nat)
    (supplierId purchaseOrderId : String) (st : SyncState) (line : POLine) :
    SyncState :=
  let rawDescription := line.description.trim
  if rawDescription = "" then st
  else
    let supplierSku := trimOptSku line.supplierSku
    let resolved := resolveProduct genId now supplierId st rawDescription supplierSku
    let st1 := resolved.1
    let productId := resolved.2
    let quantity := sanitizeQuantity line.quantity
    let unitCost := sanitizeUnitCost line.unitCostExVAT
    if quantity ≤ 0 then st1
    else
      { st1 with
        transit := st1.transit ++
          [{ id := genId st1.fresh, productId := productId
             purchaseOrderId := purchaseOrderId, poLineId := line.id
             supplierId := supplierId, quantity := quantity
             remainingQuantity := quantity, unitCostGBP := unitCost
             status := .in_transit, createdAt := now, updatedAt := now }]
        transitCreated := st1.transitCreated + 1
        fresh := st1.fresh + 1 }

/-- The counters `syncInventoryFromPurchaseOrder` returns. -/
structure SyncResult where
  productsCreated : Nat
  productsMatched : Nat
  transitCreated : Nat
deriving DecidableEq, Repr

/-- `syncInventoryFromPurchaseOrder` (lines 513-657): fold the per-line step
over the lines, starting from the stored products and transit collections
and zeroed counters, then store the mutated collections back.  `genId` and
`fresh0` supply the `crypto.randomUUID()` values, `now` the shared
timestamp. -/
def syncInventoryFromPurchaseOrder (db : Db) (genId : Nat → String)
    (fresh0 : Nat) (now : Nat) (supplierId purchaseOrderId : String)
    (poLines : List POLine) : Db × SyncResult :=
  let st0 : SyncState :=
    { products := db.products, transit := db.transit
      productsCreated := 0, productsMatched := 0, transitCreated := 0, fresh := fresh0 }
  let st := poLines.foldl (processLine genId now supplierId purchaseOrderId) st0
  ({ db with products := st.products, transit := st.transit },
   { productsCreated := st.productsCreated
     productsMatched := st.productsMatched
     transitCreated := st.transitCreated })

/-! ## JS special-value semantics for the sync sanitization
(lines 623-626) -/

/-- A JS number as the sanitization sees it: a finite value, `NaN`, or a
signed infinity. -/
inductive JSNum where
  | num (q : ℚ)
  | nan
  | posInf
  | negInf
deriving DecidableEq, Repr

/-- The JS comparison `x > 0`: false for `NaN`, true for `Infinity`. -/
def JSNum.gtZero : JSNum → Bool
  | num q => decide (0 < q)
  | nan => false
  | posInf => true
  | negInf => false

/-- The JS comparison `x >= 0`: false for `NaN`, true for `Infinity`. -/
def JSNum.geZero : JSNum → Bool
  | num q => decide (0 ≤ q)
  | nan => false
  | posInf => true
  | negInf => false

/-- `Number(x.toFixed(4))`: decimal rounding on finite values;
`toFixed` prints non-finite values as themselves (`Number("Infinity")` is
`Infinity`, `Number("NaN")` is `NaN`). -/
def JSNum.toFixed4 : JSNum → JSNum
  | num q => num (roundTo4 q)
  | nan => nan
  | posInf => posInf
  | negInf => negInf

/-- Line 623 over full JS number semantics: `typeof` is `'number'` for all
four shapes, so the guard is just the comparison. -/
def sanitizeQuantityJS (q : JSNum) : JSNum :=
  if q.gtZero then q else .num 0

/-- Lines 624-626 over full JS number semantics. -/
def sanitizeUnitCostJS (c : JSNum) : JSNum :=
  if c.geZero then c.toFixed4 else .num 0

/-! ## Spec-side notions used by the claims -/

/-- The §3 invariant on one transit record: `0 ≤ remainingQuantity ≤
quantity`, and status is the pure function of `remainingQuantity` versus
`quantity`: `received` iff remaining is 0, `partially_received` iff it is
strictly between 0 and `quantity`, `in_transit` iff it equals `quantity`. -/
def transitStatusOK (t : TransitRecord) : Prop :=
  0 ≤ t.remainingQuantity ∧ t.remainingQuantity ≤ t.quantity ∧
  (t.status = .received ↔ t.remainingQuantity = 0) ∧
  (t.status = .partially_received ↔
    0 < t.remainingQuantity ∧ t.remainingQuantity < t.quantity) ∧
  (t.status = .in_transit ↔ t.remainingQuantity = t.quantity)

/-- The §3 invariant over the whole state. -/
def dbTransitOK (db : Db) : Prop := ∀ t ∈ db.transit, transitStatusOK t

/-- The states reachable from the empty database by any sequence of sync
and receive operations (with arbitrary parameters and id/timestamp
supplies). -/
inductive Reachable : Db → Prop where
  | init : Reachable createDefaultDatabase
  | sync (db : Db) (genId : Nat → String) (fresh0 now : Nat)
      (supplierId purchaseOrderId : String) (poLines : List POLine) :
      Reachable db →
      Reachable (syncInventoryFromPurchaseOrder db genId fresh0 now
        supplierId purchaseOrderId poLines).1
  | receive (db : Db) (freshInvId : String) (now : Nat)
      (productId : String) (quantity : ℚ) :
      Reachable db →
      Reachable (receiveStockForProduct db freshInvId now productId quantity).1

/-- The on-hand quantity stored for a product before an operation (0 when
the product has no inventory record yet). -/
def oldOnHand (db : Db) (productId : String) : ℚ :=
  ((storedInventory db productId).map fun inv => inv.quantityOnHand).getD 0

/-- The average cost stored for a product before an operation (0 when the
product has no inventory record yet). -/
def oldAverageCost (db : Db) (productId : String) : ℚ :=
  ((storedInventory db productId).map fun inv => inv.averageCostGBP).getD 0

/-- The §8 consumption summands the claims describe: per record, the
consumed amount (old remainder minus new remainder) times that record's
unit cost, summed over the positionally corresponding old/new record
pairs. -/
def consumedValue (old new : List TransitRecord) : ℚ :=
  ((old.zip new).map fun pr =>
    (pr.1.remainingQuantity - pr.2.remainingQuantity) * pr.1.unitCostGBP).sum

/-! ## The worked example of spec §8 -/

/-- The product of the §8 receive example. -/
def exProduct : Product :=
  { id := "p1", name := "One Piece OP01 Romance Dawn", primarySku := some "OP01"
    supplierSku := some "OP01", barcodes := [], aliases := ["One Piece OP01 Romance Dawn"]
    supplierId := some "s1", category := none, tags := [], createdAt := 10, updatedAt := 10 }

/-- Oldest transit record of the §8 example: remaining 5 at unit cost 2.0. -/
def exTransitOld : TransitRecord :=
  { id := "t1", productId := "p1", purchaseOrderId := "po1", poLineId := "l1"
    supplierId := "s1", quantity := 5, remainingQuantity := 5, unitCostGBP := 2
    status := .in_transit, createdAt := 100, updatedAt := 100 }

/-- Newer transit record of the §8 example: remaining 3 at unit cost 3.0. -/
def exTransitNew : TransitRecord :=
  { id := "t2", productId := "p1", purchaseOrderId := "po2", poLineId := "l2"
    supplierId := "s1", quantity := 3, remainingQuantity := 3, unitCostGBP := 3
    status := .in_transit, createdAt := 200, updatedAt := 200 }

/-- The §8 example state: one product, no inventory record yet, the two
transit records (stored newest-first to exercise the sort). -/
def exDb : Db :=
  { createDefaultDatabase with
    products := [exProduct], transit := [exTransitNew, exTransitOld] }

/-- The result of the §8 receipt `receive(productId, 6)` on `exDb`:
5 consumed from the oldest record and 1 from the newer,
`incomingTotalValue = 5*2.0 + 1*3.0 = 13.0`, average `13/6` rounded to
`2.1667`. -/
def exReceiveResult : ReceiveStockResult :=
  { productId := "p1", receivedQuantity := 6, remainingRequestedQuantity := 0
    newQuantityOnHand := 6, newAverageCostGBP := 21667 / 10000
    affectedTransitIds := ["t1", "t2"] }

/-- The state after the §8 receipt: on-hand 6 at average 2.1667, the newer
record left with remaining 2 at cost 3.0 (the §8 second-receipt setup). -/
def exDbSecond : Db :=
  { createDefaultDatabase with
    products := [exProduct]
    inventory := [{ id := "i1", productId := "p1", quantityOnHand := 6
                    averageCostGBP := 21667 / 10000, lastUpdated := 300 }]
    transit := [{ exTransitNew with
                  remainingQuantity := 2, status := .partially_received, updatedAt := 300 }] }

/-- The result of the §8 second receipt of quantity 2:
`newOnHand = 8`, `newAvg = (6*2.1667 + 2*3.0)/8 = 2.375`. -/
def exReceiveResultSecond : ReceiveStockResult :=
  { productId := "p1", receivedQuantity := 2, remainingRequestedQuantity := 0
    newQuantityOnHand := 8, newAverageCostGBP := 19 / 8
    affectedTransitIds := ["t2"] }

/-- A state with one product and no transit at all: `receive` on it throws
`InsufficientTransitError` after having already pushed a fresh zero
inventory record into the in-memory state. -/
def noTransitDb : Db := { createDefaultDatabase with products := [exProduct] }

/-- A catalog for the matcher examples: the first product would win any
fuzzy comparison against the example description, the second carries the
exactly matching primary SKU and must win instead. -/
def skuCatalog : List Product :=
  [{ id := "pf", name := "Dragon Shield Matte Sleeves Red", primarySku := none
     supplierSku := none, barcodes := [], aliases := ["Dragon Shield Matte Sleeves Red"]
     supplierId := none, category := none, tags := [], createdAt := 30, updatedAt := 30 },
   { id := "ps", name := "Completely Different Item", primarySku := some "DS-RED"
     supplierSku := none, barcodes := [], aliases := []
     supplierId := none, category := none, tags := [], createdAt := 31, updatedAt := 31 }]

/-- A deterministic supply of fresh ids for sync examples. -/
def genIdDefault : Nat → String := fun n => "new-" ++ toString n

/-- A sync loop state over the matcher catalog, used by the sync examples. -/
def exSyncState : SyncState :=
  { products := skuCatalog, transit := [], productsCreated := 0
    productsMatched := 0, transitCreated := 0, fresh := 0 }

/-- A purchase-order line whose quantity is zero: product resolution must
still happen, no transit record may be created. -/
def zeroQtyLine : POLine :=
  { id := "lz", purchaseOrderId := "poz"
    description := "Dragon Shield Matte Sleeves Blue", supplierSku := none
    quantity := 0, unitCostExVAT := 5, lineTotalExVAT := 0 }

/-- A second product, untouched by receives against `exProduct`. -/
def otherProduct : Product :=
  { id := "p2", name := "Pokemon 151 Elite Trainer", primarySku := some "PKM151"
    supplierSku := none, barcodes := ["5012345678900"]
    aliases := ["Pokemon 151 Elite Trainer"], supplierId := some "s2"
    category := none, tags := [], createdAt := 20, updatedAt := 20 }

/-- A state populated across every collection, used to observe the frame of
a successful receive against product `p1`. -/
def frameDb : Db :=
  { suppliers := [{ id := "s1", name := "Eterna Games", address := none, email := none
                    phone := none, vatNumber := none, createdAt := 1 }]
    purchaseOrders := [{ id := "po1", supplierId := "s1", invoiceNumber := some "INV-1"
                         invoiceDate := none, currency := "GBP", paymentTerms := none
                         createdAt := 2 }]
    poLines := [{ id := "l1", purchaseOrderId := "po1", description := "One Piece OP01"
                  supplierSku := some "OP01", quantity := 5, unitCostExVAT := 2
                  lineTotalExVAT := 10 }]
    products := [exProduct, otherProduct]
    inventory := [{ id := "i2", productId := "p2", quantityOnHand := 4
                    averageCostGBP := 7, lastUpdated := 50 }]
    transit := [exTransitNew,
                { id := "t3", productId := "p2", purchaseOrderId := "po2", poLineId := "l3"
                  supplierId := "s2", quantity := 9, remainingQuantity := 9
                  unitCostGBP := 4, status := .in_transit, createdAt := 150, updatedAt := 150 },
                exTransitOld]
    invoices := [{ id := "inv1", purchaseOrderId := "po1", supplierId := "s1"
                   invoiceNumber := some "INV-1", invoiceDate := none, currency := "GBP"
                   createdAt := 3 }]
    tasks := [{ id := "task1", title := "Restock shelf", completed := false
                createdAt := 4, completedAt := none }] }

/-! ## Lemmas: the stable sort on `createdAt` -/

theorem insertByCreatedAt_perm (x : TransitRecord) (l : List TransitRecord) :
    List.Perm (insertByCreatedAt x l) (x :: l) := by
  induction l with
  | nil => simp [insertByCreatedAt]
  | cons y ys ih =>
    simp only [insertByCreatedAt]
    split
    · exact List.Perm.refl _
    · exact (ih.cons y).trans (List.Perm.swap x y ys)

theorem sortByCreatedAt_perm (l : List TransitRecord) : List.Perm (sortByCreatedAt l) l := by
  suffices h : ∀ acc : List TransitRecord,
      List.Perm (l.foldl (fun acc x => insertByCreatedAt x acc) acc) (acc ++ l) by
    simpa [sortByCreatedAt] using h []
  induction l with
  | nil => intro acc; simp
  | cons x xs ih =>
    intro acc
    simp only [List.foldl_cons]
    exact ((ih _).trans
      (((insertByCreatedAt_perm x acc).append_right xs).trans List.perm_middle.symm))

theorem insertByCreatedAt_pairwise {x : TransitRecord} {l : List TransitRecord}
    (h : l.Pairwise fun a b => a.createdAt ≤ b.createdAt) :
    (insertByCreatedAt x l).Pairwise fun a b => a.createdAt ≤ b.createdAt := by
  induction l with
  | nil => simp [insertByCreatedAt]
  | cons y ys ih =>
    rcases List.pairwise_cons.mp h with ⟨hy, hys⟩
    simp only [insertByCreatedAt]
    split
    case isTrue hlt =>
      refine List.pairwise_cons.mpr ⟨?_, h⟩
      intro b hb
      rcases List.mem_cons.mp hb with rfl | hb
      · exact le_of_lt hlt
      · exact le_trans (le_of_lt hlt) (hy b hb)
    case isFalse hge =>
      refine List.pairwise_cons.mpr ⟨?_, ih hys⟩
      intro b hb
      rcases List.mem_cons.mp ((insertByCreatedAt_perm x ys).mem_iff.mp hb) with rfl | hb
      · exact le_of_not_lt hge
      · exact hy b hb

theorem sortByCreatedAt_pairwise (l : List TransitRecord) :
    (sortByCreatedAt l).Pairwise fun a b => a.createdAt ≤ b.createdAt := by
  suffices h : ∀ acc : List TransitRecord,
      (acc.Pairwise fun a b => a.createdAt ≤ b.createdAt) →
      ((l.foldl (fun acc x => insertByCreatedAt x acc) acc).Pairwise
        fun a b => a.createdAt ≤ b.createdAt) by
    exact h [] (by simp)
  induction l with
  | nil => intro acc hacc; simpa using hacc
  | cons x xs ih =>
    intro acc hacc
    exact ih _ (insertByCreatedAt_pairwise hacc)

theorem receivableSorted_perm (db : Db) (pid : String) :
    List.Perm (receivableSorted db pid) (db.transit.filter (isReceivable pid)) :=
  sortByCreatedAt_perm _

theorem mem_receivableSorted {db : Db} {pid : String} {t : TransitRecord} :
    t ∈ receivableSorted db pid ↔ t ∈ db.transit ∧ isReceivable pid t := by
  rw [receivableSorted, (sortByCreatedAt_perm _).mem_iff, List.mem_filter]

theorem receivableSorted_eq_nil_iff {db : Db} {pid : String} :
    receivableSorted db pid = [] ↔ db.transit.filter (isReceivable pid) = [] := by
  constructor
  · intro h
    have hp := receivableSorted_perm db pid
    rw [h] at hp
    exact hp.symm.eq_nil
  · intro h
    rw [receivableSorted, h]
    rfl

theorem mem_receivableSorted_rem_pos {db : Db} {pid : String} {t : TransitRecord}
    (h : t ∈ receivableSorted db pid) : 0 < t.remainingQuantity := by
  have := (mem_receivableSorted.mp h).2
  simp only [isReceivable, decide_eq_true_eq] at this
  exact this.2

theorem mem_receivableSorted_productId {db : Db} {pid : String} {t : TransitRecord}
    (h : t ∈ receivableSorted db pid) : t.productId = pid := by
  have := (mem_receivableSorted.mp h).2
  simp only [isReceivable, decide_eq_true_eq] at this
  exact this.1

/-! ## Lemmas: the FIFO consumption loop -/

theorem fifoWalk_nonpos (now : Nat) (r : ℚ) (l : List TransitRecord) (h : r ≤ 0) :
    fifoWalk now r l =
      { receivedQuantity := 0, incomingTotalValue := 0, remainingToReceive := r
        records := l, affectedTransitIds := [] } := by
  cases l with
  | nil => rfl
  | cons t rest => simp [fifoWalk, if_pos h]

theorem fifoWalk_remaining (now : Nat) (r : ℚ) (l : List TransitRecord) :
    (fifoWalk now r l).remainingToReceive = r - (fifoWalk now r l).receivedQuantity := by
  induction l generalizing r with
  | nil => simp [fifoWalk]
  | cons t rest ih =>
    by_cases h1 : r ≤ 0
    · simp [fifoWalk, if_pos h1]
    · by_cases h2 : t.remainingQuantity ≤ 0
      · simpa [fifoWalk, if_neg h1, if_pos h2] using ih r
      · simp only [fifoWalk, if_neg h1, if_neg h2]
        rw [ih]
        ring

theorem fifoWalk_received_min (now : Nat) (r : ℚ) (l : List TransitRecord)
    (hr : 0 < r) (hl : ∀ t ∈ l, 0 < t.remainingQuantity) :
    (fifoWalk now r l).receivedQuantity =
      min r ((l.map fun t => t.remainingQuantity).sum) := by
  induction l generalizing r with
  | nil => simpa [fifoWalk] using (min_eq_right hr.le).symm
  | cons t rest ih =>
    have hpos : 0 < t.remainingQuantity := hl t (List.mem_cons_self t rest)
    have hrest : ∀ u ∈ rest, 0 < u.remainingQuantity :=
      fun u hu => hl u (List.mem_cons_of_mem t hu)
    have hsum : 0 ≤ ((rest.map fun t => t.remainingQuantity).sum) := by
      apply List.sum_nonneg
      intro x hx
      rcases List.mem_map.mp hx with ⟨u, hu, rfl⟩
      exact (hrest u hu).le
    simp only [fifoWalk, if_neg (not_le.mpr hr), if_neg (not_le.mpr hpos),
      List.map_cons, List.sum_cons]
    by_cases hc : r ≤ t.remainingQuantity
    · rw [min_eq_left hc, fifoWalk_nonpos now (r - r) rest (by simp)]
      have : r ≤ t.remainingQuantity + (rest.map fun t => t.remainingQuantity).sum :=
        le_add_of_le_of_nonneg hc hsum
      simp [min_eq_left this]
    · push_neg at hc
      rw [min_eq_right hc.le, ih (r - t.remainingQuantity) (by linarith) hrest]
      rw [show r = t.remainingQuantity + (r - t.remainingQuantity) by ring]
      rw [min_add_add_left]
      ring_nf

theorem fifoWalk_received_pos (now : Nat) (r : ℚ) (l : List TransitRecord)
    (hr : 0 < r) (hl : ∀ t ∈ l, 0 < t.remainingQuantity) (hne : l ≠ []) :
    0 < (fifoWalk now r l).receivedQuantity := by
  rw [fifoWalk_received_min now r l hr hl]
  rcases l with _ | ⟨t, rest⟩
  · exact absurd rfl hne
  · have hpos : 0 < t.remainingQuantity := hl t (List.mem_cons_self t rest)
    have hsum : 0 ≤ ((rest.map fun t => t.remainingQuantity).sum) := by
      apply List.sum_nonneg
      intro x hx
      rcases List.mem_map.mp hx with ⟨u, hu, rfl⟩
      exact (hl u (List.mem_cons_of_mem t hu)).le
    simp only [List.map_cons, List.sum_cons]
    exact lt_min hr (by linarith)

theorem fifoWalk_records_map_id (now : Nat) (r : ℚ) (l : List TransitRecord) :
    ((fifoWalk now r l).records.map fun t => t.id) = l.map fun t => t.id := by
  induction l generalizing r with
  | nil => rfl
  | cons t rest ih =>
    by_cases h1 : r ≤ 0
    · simp [fifoWalk, if_pos h1]
    · by_cases h2 : t.remainingQuantity ≤ 0
      · simpa [fifoWalk, if_neg h1, if_pos h2] using ih r
      · simpa [fifoWalk, if_neg h1, if_neg h2] using ih (r - min r t.remainingQuantity)

theorem fifoWalk_records_map_productId (now : Nat) (r : ℚ) (l : List TransitRecord) :
    ((fifoWalk now r l).records.map fun t => t.productId) =
      l.map fun t => t.productId := by
  induction l generalizing r with
  | nil => rfl
  | cons t rest ih =>
    by_cases h1 : r ≤ 0
    · simp [fifoWalk, if_pos h1]
    · by_cases h2 : t.remainingQuantity ≤ 0
      · simpa [fifoWalk, if_neg h1, if_pos h2] using ih r
      · simpa [fifoWalk, if_neg h1, if_neg h2] using ih (r - min r t.remainingQuantity)

theorem fifoWalk_records_ok (now : Nat) (r : ℚ) (l : List TransitRecord)
    (h : ∀ t ∈ l, transitStatusOK t) :
    ∀ u ∈ (fifoWalk now r l).records, transitStatusOK u := by
  induction l generalizing r with
  | nil => intro u hu; simp [fifoWalk] at hu
  | cons t rest ih =>
    have ht : transitStatusOK t := h t (List.mem_cons_self t rest)
    have hrest : ∀ u ∈ rest, transitStatusOK u :=
      fun u hu => h u (List.mem_cons_of_mem t hu)
    by_cases h1 : r ≤ 0
    · intro u hu
      rw [fifoWalk_nonpos now r _ h1] at hu
      exact h u hu
    · by_cases h2 : t.remainingQuantity ≤ 0
      · intro u hu
        simp only [fifoWalk, if_neg h1, if_pos h2] at hu
        rcases List.mem_cons.mp hu with rfl | hu
        · exact ht
        · exact ih r hrest u hu
      · intro u hu
        simp only [fifoWalk, if_neg h1, if_neg h2] at hu
        rcases List.mem_cons.mp hu with rfl | hu
        · -- the consumed record
          push_neg at h1 h2
          obtain ⟨ht0, htq, -, -, -⟩ := ht
          set take := min r t.remainingQuantity with htake
          have htp : 0 < take := lt_min h1 h2
          have htle : take ≤ t.remainingQuantity := min_le_right _ _
          have hq : 0 < t.quantity := lt_of_lt_of_le h2 htq
          simp only [transitStatusOK]
          refine ⟨by linarith, by linarith, ?_, ?_, ?_⟩
          · by_cases hrem : 0 < t.remainingQuantity - take
            · rw [if_pos hrem]
              constructor
              · intro hs; simp at hs
              · intro h0; linarith
            · rw [if_neg hrem]
              have h0 : t.remainingQuantity - take = 0 :=
                le_antisymm (not_lt.mp hrem) (by linarith)
              exact ⟨fun _ => h0, fun _ => rfl⟩
          · by_cases hrem : 0 < t.remainingQuantity - take
            · rw [if_pos hrem]
              exact ⟨fun _ => ⟨hrem, by linarith⟩, fun _ => rfl⟩
            · rw [if_neg hrem]
              constructor
              · intro hs; simp at hs
              · intro hcon; exact absurd hcon.1 hrem
          · by_cases hrem : 0 < t.remainingQuantity - take
            · rw [if_pos hrem]
              constructor
              · intro hs; simp at hs
              · intro heq; linarith
            · rw [if_neg hrem]
              constructor
              · intro hs; simp at hs
              · intro heq
                have h0 : t.remainingQuantity - take = 0 :=
                  le_antisymm (not_lt.mp hrem) (by linarith)
                rw [h0] at heq
                linarith [heq.symm ▸ hq]
        · exact ih (r - min r t.remainingQuantity) hrest u hu

theorem consumedValue_self (l : List TransitRecord) : consumedValue l l = 0 := by
  induction l with
  | nil => simp [consumedValue]
  | cons t rest ih =>
    simp only [consumedValue, List.zip_cons_cons, List.map_cons, List.sum_cons] at ih ⊢
    simp [ih]

theorem fifoWalk_value (now : Nat) (r : ℚ) (l : List TransitRecord)
    (hc : ∀ t ∈ l, 0 ≤ t.unitCostGBP) :
    (fifoWalk now r l).incomingTotalValue = consumedValue l (fifoWalk now r l).records := by
  induction l generalizing r with
  | nil => simp [fifoWalk, consumedValue]
  | cons t rest ih =>
    have hct : 0 ≤ t.unitCostGBP := hc t (List.mem_cons_self t rest)
    have hcrest : ∀ u ∈ rest, 0 ≤ u.unitCostGBP :=
      fun u hu => hc u (List.mem_cons_of_mem t hu)
    by_cases h1 : r ≤ 0
    · rw [fifoWalk_nonpos now r _ h1]
      exact (consumedValue_self _).symm
    · by_cases h2 : t.remainingQuantity ≤ 0
      · simp only [fifoWalk, if_neg h1, if_pos h2]
        simp only [consumedValue, List.zip_cons_cons, List.map_cons, List.sum_cons]
        rw [← consumedValue, ih r hcrest]
        simp
      · simp only [fifoWalk, if_neg h1, if_neg h2, if_pos hct]
        simp only [consumedValue, List.zip_cons_cons, List.map_cons, List.sum_cons]
        rw [← consumedValue, ih (r - min r t.remainingQuantity) hcrest]
        ring_nf

theorem receive_success_eq (db : Db) (fid : String) (now : Nat) (pid : String) (q : ℚ)
    (h1 : pid ≠ "") (h2 : 0 < q)
    (h3 : (db.products.find? fun p => p.id = pid).isSome = true)
    (h4 : receivableSorted db pid ≠ []) :
    receiveStockForProduct db fid now pid q =
      (let w := fifoWalk now q (receivableSorted db pid)
       let invFound := storedInventory db pid
       let inventoryRecord := invFound.getD
         { id := fid, productId := pid, quantityOnHand := 0
           averageCostGBP := 0, lastUpdated := now }
       let invIdx := if invFound.isSome then db.inventory.findIdx fun inv => inv.productId = pid
                     else db.inventory.length
       let inv1 := if invFound.isSome then db.inventory else db.inventory ++ [inventoryRecord]
       let newOnHand := inventoryRecord.quantityOnHand + w.receivedQuantity
       let newAvg := if 0 < newOnHand then
           roundTo4 ((inventoryRecord.quantityOnHand * inventoryRecord.averageCostGBP +
             w.incomingTotalValue) / newOnHand)
         else 0
       ({ db with
            inventory := inv1.set invIdx
              { inventoryRecord with
                quantityOnHand := newOnHand, averageCostGBP := newAvg, lastUpdated := now }
            transit := applyTransitUpdates pid w.records db.transit },
        .ok { productId := pid, receivedQuantity := w.receivedQuantity
              remainingRequestedQuantity := w.remainingToReceive
              newQuantityOnHand := newOnHand, newAverageCostGBP := newAvg
              affectedTransitIds := w.affectedTransitIds })) := by
  have hg : ¬ (fifoWalk now q (receivableSorted db pid)).receivedQuantity ≤ 0 :=
    not_le.mpr (fifoWalk_received_pos now q _ h2
      (fun t ht => mem_receivableSorted_rem_pos ht) h4)
  unfold receiveStockForProduct
  rw [if_neg h1, if_neg (not_le.mpr h2), if_neg (by simp_all)]
  simp only [if_neg h4, if_neg hg]

/-! ## Lemmas: list positions and filters -/

theorem find?_get_findIdx {α : Type} (p : α → Bool) (l : List α) (a : α)
    (h : l.find? p = some a) : l.get? (l.findIdx p) = some a := by
  induction l with
  | nil => simp [List.find?] at h
  | cons x xs ih =>
    by_cases hp : p x
    · rw [List.find?_cons_of_pos _ hp] at h
      rw [List.findIdx_cons]
      simp [hp, h.symm]
    · rw [List.find?_cons_of_neg _ hp] at h
      rw [List.findIdx_cons]
      simp only [hp, cond_false]
      simpa using ih h

theorem filter_set_of_not {α : Type} (p : α → Bool) (l : List α) (i : Nat) (a b : α)
    (hget : l.get? i = some a) (ha : p a = false) (hb : p b = false) :
    (l.set i b).filter p = l.filter p := by
  induction l generalizing i with
  | nil => simp at hget
  | cons x xs ih =>
    cases i with
    | zero =>
      simp only [List.get?] at hget
      cases hget
      simp [List.set, List.filter, ha, hb]
    | succ n =>
      simp only [List.get?] at hget
      simp only [List.set, List.filter]
      rw [ih n hget]

theorem filter_append_single_not {α : Type} (p : α → Bool) (l : List α) (x : α)
    (hx : p x = false) : (l ++ [x]).filter p = l.filter p := by
  rw [List.filter_append]
  simp [List.filter, hx]

theorem set_append_length {α : Type} (l : List α) (x b : α) :
    (l ++ [x]).set l.length b = l ++ [b] := by
  induction l with
  | nil => rfl
  | cons y ys ih => simp [List.set, ih]

theorem updateReceivable_productId (pid : String) (recs : List TransitRecord)
    (t : TransitRecord) (hrec : ∀ u ∈ recs, u.productId = pid) :
    (updateReceivable pid recs t).productId = t.productId := by
  unfold updateReceivable
  by_cases hr : isReceivable pid t
  · rw [if_pos hr]
    have htp : t.productId = pid := (of_decide_eq_true hr).1
    rcases hfind : recs.find? fun u => u.id = t.id with _ | u
    · rw [hfind, Option.getD_none]
    · rw [hfind]
      simp only [Option.getD_some]
      rw [hrec u (List.mem_of_find?_eq_some hfind), htp]
  · rw [if_neg hr]

theorem updateReceivable_of_other (pid : String) (recs : List TransitRecord)
    (t : TransitRecord) (hne : t.productId ≠ pid) :
    updateReceivable pid recs t = t := by
  unfold updateReceivable
  rw [if_neg]
  intro hr
  exact hne (of_decide_eq_true hr).1

theorem applyTransitUpdates_filter_not (pid : String) (recs transit : List TransitRecord)
    (hrec : ∀ u ∈ recs, u.productId = pid) :
    ((applyTransitUpdates pid recs transit).filter fun t => decide (t.productId ≠ pid)) =
      transit.filter fun t => decide (t.productId ≠ pid) := by
  induction transit with
  | nil => rfl
  | cons t rest ih =>
    simp only [applyTransitUpdates, List.map_cons, List.filter_cons] at ih ⊢
    by_cases hp : t.productId = pid
    · rw [updateReceivable_productId pid recs t hrec]
      simp only [hp, ne_eq, not_true_eq_false, decide_False, Bool.false_eq_true, if_false]
      exact ih
    · rw [updateReceivable_of_other pid recs t hp]
      simp only [ne_eq, hp, not_false_eq_true, decide_True, if_true]
      rw [ih]

/-! ## Lemmas: the error paths of `receiveStockForProduct` -/

theorem receive_insufficient_eq (db : Db) (fid : String) (now : Nat) (pid : String) (q : ℚ)
    (h1 : pid ≠ "") (h2 : 0 < q)
    (h3 : (db.products.find? fun p => p.id = pid).isSome = true)
    (h4 : receivableSorted db pid = []) :
    receiveStockForProduct db fid now pid q =
      ({ db with
          inventory :=
            if (storedInventory db pid).isSome then db.inventory
            else db.inventory ++
              [(storedInventory db pid).getD
                { id := fid, productId := pid, quantityOnHand := 0
                  averageCostGBP := 0, lastUpdated := now }] },
       .error .insufficientTransitError) := by
  unfold receiveStockForProduct
  rw [if_neg h1, if_neg (not_le.mpr h2), if_neg (by simp_all)]
  simp only [if_pos h4]

theorem getD_quantityOnHand (db : Db) (pid fid : String) (now : Nat) :
    ((storedInventory db pid).getD
      { id := fid, productId := pid, quantityOnHand := 0
        averageCostGBP := 0, lastUpdated := now }).quantityOnHand = oldOnHand db pid := by
  unfold oldOnHand
  rcases storedInventory db pid with _ | r0 <;> rfl

theorem getD_averageCost (db : Db) (pid fid : String) (now : Nat) :
    ((storedInventory db pid).getD
      { id := fid, productId := pid, quantityOnHand := 0
        averageCostGBP := 0, lastUpdated := now }).averageCostGBP = oldAverageCost db pid := by
  unfold oldAverageCost
  rcases storedInventory db pid with _ | r0 <;> rfl

/-! ## The claims about `receiveStockForProduct` -/

/-- Claim C1: a successful `receive(productId, q)` with `q > 0` and at least
one positive-remainder transit record consumes exactly the product's
positive-remainder records in ascending `createdAt` order, taking
`min(remainingToReceive, record.remainingQuantity)` from each until the
request is exhausted or records run out; `receivedQuantity` is
`min(q, total available)`, the reported `remainingRequestedQuantity` is
`q - receivedQuantity`, and `incomingTotalValue` is the sum over touched
records of the consumed amount times that record's `unitCostGBP`; in
particular on the §8 state, `receive(productId, 6)` consumes 5 from the
oldest record and 1 from the newer, leaving remainders 0 and 2, with
`receivedQuantity = 6` and `incomingTotalValue = 13.0`. -/
theorem claim_C1 (db : Db) (fid : String) (now : Nat) (pid : String) (q : ℚ)
    (h1 : pid ≠ "") (h2 : 0 < q)
    (h3 : (db.products.find? fun p => p.id = pid).isSome = true)
    (h4 : receivableSorted db pid ≠ [])
    (hcost : ∀ t ∈ receivableSorted db pid, 0 ≤ t.unitCostGBP)
    (r : ReceiveStockResult)
    (hr : (receiveStockForProduct db fid now pid q).2 = .ok r) :
    r.receivedQuantity =
      min q (((db.transit.filter (isReceivable pid)).map fun t => t.remainingQuantity).sum) ∧
    r.remainingRequestedQuantity = q - r.receivedQuantity ∧
    (fifoWalk now q (receivableSorted db pid)).incomingTotalValue =
      consumedValue (receivableSorted db pid)
        (fifoWalk now q (receivableSorted db pid)).records ∧
    ((receivableSorted db pid).Pairwise fun a b => a.createdAt ≤ b.createdAt) ∧
    (receiveStockForProduct exDb "i1" 300 "p1" 6).2 = .ok exReceiveResult ∧
    (receiveStockForProduct exDb "i1" 300 "p1" 6).1.transit =
      [{ exTransitNew with remainingQuantity := 2, status := TransitStatus.partially_received, updatedAt := 300 },
       { exTransitOld with remainingQuantity := 0, status := TransitStatus.received, updatedAt := 300 }] ∧
    (fifoWalk 300 6 (receivableSorted exDb "p1")).incomingTotalValue = 13 := by
  have hmem : ∀ t ∈ receivableSorted db pid, 0 < t.remainingQuantity :=
    fun t ht => mem_receivableSorted_rem_pos ht
  rw [receive_success_eq db fid now pid q h1 h2 h3 h4] at hr
  dsimp only at hr
  injection hr with hres
  subst hres
  refine ⟨?_, ?_, ?_, ?_, ?_, ?_, ?_⟩
  · dsimp only
    rw [fifoWalk_received_min now q _ h2 hmem]
    congr 1
    exact ((receivableSorted_perm db pid).map fun t => t.remainingQuantity).sum_eq
  · dsimp only
    exact fifoWalk_remaining now q _
  · exact fifoWalk_value now q _ hcost
  · exact sortByCreatedAt_pairwise _
  · with_unfolding_all rfl
  · with_unfolding_all rfl
  · with_unfolding_all rfl

theorem claim_C1_witness :
    exReceiveResult.receivedQuantity =
      min 6 (((exDb.transit.filter (isReceivable "p1")).map fun t => t.remainingQuantity).sum) :=
  (claim_C1 exDb "i1" 300 "p1" 6 (by decide) (by norm_num)
    (by with_unfolding_all decide) (by with_unfolding_all decide)
    (by with_unfolding_all decide) exReceiveResult (by with_unfolding_all rfl)).1

/-- Claim C2: every successful receive updates the inventory record by
`newOnHand = oldOnHand + receivedQuantity` and `newAvg = (oldOnHand ×
oldAverageCost + incomingTotalValue) / newOnHand` rounded to 4 decimal
places (0 when `newOnHand` is not positive, which cannot happen when the
stored on-hand was non-negative); in particular the §8 receipt of 6 units
worth 13.0 from on-hand 0 yields `newOnHand = 6`, `newAvg = 2.1667`, and
the second receipt of 2 units at cost 3.0 from on-hand 6 at avg 2.1667
yields `newOnHand = 8`, `newAvg = 2.375`. -/
theorem claim_C2 (db : Db) (fid : String) (now : Nat) (pid : String) (q : ℚ)
    (h1 : pid ≠ "") (h2 : 0 < q)
    (h3 : (db.products.find? fun p => p.id = pid).isSome = true)
    (h4 : receivableSorted db pid ≠ [])
    (r : ReceiveStockResult)
    (hr : (receiveStockForProduct db fid now pid q).2 = .ok r) :
    r.newQuantityOnHand = oldOnHand db pid + r.receivedQuantity ∧
    0 < r.receivedQuantity ∧
    r.newAverageCostGBP =
      (if 0 < r.newQuantityOnHand then
        roundTo4 ((oldOnHand db pid * oldAverageCost db pid +
          (fifoWalk now q (receivableSorted db pid)).incomingTotalValue) /
            r.newQuantityOnHand)
       else 0) ∧
    (0 ≤ oldOnHand db pid → 0 < r.newQuantityOnHand) ∧
    (receiveStockForProduct exDb "i1" 300 "p1" 6).2 = .ok exReceiveResult ∧
    exReceiveResult.newQuantityOnHand = 6 ∧
    exReceiveResult.newAverageCostGBP = 21667 / 10000 ∧
    (receiveStockForProduct exDbSecond "i2" 400 "p1" 2).2 = .ok exReceiveResultSecond ∧
    exReceiveResultSecond.newQuantityOnHand = 8 ∧
    exReceiveResultSecond.newAverageCostGBP = 19 / 8 := by
  have hmem : ∀ t ∈ receivableSorted db pid, 0 < t.remainingQuantity :=
    fun t ht => mem_receivableSorted_rem_pos ht
  have hpos : 0 < (fifoWalk now q (receivableSorted db pid)).receivedQuantity :=
    fifoWalk_received_pos now q _ h2 hmem h4
  rw [receive_success_eq db fid now pid q h1 h2 h3 h4] at hr
  dsimp only at hr
  injection hr with hres
  subst hres
  refine ⟨?_, ?_, ?_, ?_, ?_, ?_, ?_, ?_, ?_, ?_⟩
  · dsimp only
    rw [getD_quantityOnHand]
  · exact hpos
  · dsimp only
    rw [getD_quantityOnHand, getD_averageCost]
  · intro hold
    dsimp only
    rw [getD_quantityOnHand]
    linarith
  · with_unfolding_all rfl
  · with_unfolding_all rfl
  · with_unfolding_all rfl
  · with_unfolding_all rfl
  · with_unfolding_all rfl
  · with_unfolding_all rfl

theorem claim_C2_witness :
    exReceiveResult.newQuantityOnHand = oldOnHand exDb "p1" + exReceiveResult.receivedQuantity :=
  (claim_C2 exDb "i1" 300 "p1" 6 (by decide) (by norm_num)
    (by with_unfolding_all decide) (by with_unfolding_all decide)
    exReceiveResult (by with_unfolding_all rfl)).1

/-- Claim C6: with an existing product and a valid quantity, `receive`
fails with `InsufficientTransitError` exactly when every transit record of
the product has non-positive remaining quantity (in particular when there
are none), for every requested quantity `q > 0` — and that is the only
error such a call can produce. -/
theorem claim_C6 (db : Db) (fid : String) (now : Nat) (pid : String) (q : ℚ)
    (h1 : pid ≠ "") (h2 : 0 < q)
    (h3 : (db.products.find? fun p => p.id = pid).isSome = true) :
    ((receiveStockForProduct db fid now pid q).2 = .error .insufficientTransitError ↔
      ∀ t ∈ db.transit, t.productId = pid → t.remainingQuantity ≤ 0) ∧
    ∀ e, (receiveStockForProduct db fid now pid q).2 = .error e →
      e = .insufficientTransitError := by
  have hfilter : db.transit.filter (isReceivable pid) = [] ↔
      ∀ t ∈ db.transit, t.productId = pid → t.remainingQuantity ≤ 0 := by
    rw [List.filter_eq_nil_iff]
    constructor
    · intro h t ht hp
      have := h t ht
      simp only [isReceivable, decide_eq_true_eq, not_and, not_lt] at this
      exact this hp
    · intro h t ht
      simp only [isReceivable, decide_eq_true_eq, not_and, not_lt]
      exact h t ht
  by_cases h4 : receivableSorted db pid = []
  · have heq := receive_insufficient_eq db fid now pid q h1 h2 h3 h4
    have hnil : ∀ t ∈ db.transit, t.productId = pid → t.remainingQuantity ≤ 0 :=
      hfilter.mp (receivableSorted_eq_nil_iff.mp h4)
    constructor
    · rw [heq]
      exact ⟨fun _ => hnil, fun _ => rfl⟩
    · intro e he
      rw [heq] at he
      dsimp only at he
      injection he with he2
      exact he2.symm
  · have heq := receive_success_eq db fid now pid q h1 h2 h3 h4
    constructor
    · rw [heq]
      dsimp only
      constructor
      · intro habs
        cases habs
      · intro hall
        exact absurd (receivableSorted_eq_nil_iff.mpr (hfilter.mpr hall)) h4
    · intro e he
      rw [heq] at he
      dsimp only at he
      cases he

theorem claim_C6_witness :
    (receiveStockForProduct noTransitDb "i9" 500 "p1" 1).2 =
      .error .insufficientTransitError :=
  (claim_C6 noTransitDb "i9" 500 "p1" 1 (by decide) (by norm_num)
    (by with_unfolding_all decide)).1.mpr (by with_unfolding_all decide)

/-- Claim C9 counterexample: on a state with the product but no transit and
no inventory record, the failing `receive` call does change the in-memory
state — it has already appended a fresh zero-quantity inventory record for
the product before throwing `InsufficientTransitError` (only the durable
write is skipped). -/
theorem claim_C9_counterexample :
    (receiveStockForProduct noTransitDb "i9" 500 "p1" 1).2 =
      .error .insufficientTransitError ∧
    (receiveStockForProduct noTransitDb "i9" 500 "p1" 1).1 ≠ noTransitDb ∧
    (receiveStockForProduct noTransitDb "i9" 500 "p1" 1).1.inventory =
      [{ id := "i9", productId := "p1", quantityOnHand := 0
         averageCostGBP := 0, lastUpdated := 500 }] := by
  refine ⟨by with_unfolding_all rfl, ?_, by with_unfolding_all rfl⟩
  intro h
  have hinv : (receiveStockForProduct noTransitDb "i9" 500 "p1" 1).1.inventory =
      noTransitDb.inventory := by rw [h]
  rw [show (receiveStockForProduct noTransitDb "i9" 500 "p1" 1).1.inventory =
      [{ id := "i9", productId := "p1", quantityOnHand := 0
         averageCostGBP := 0, lastUpdated := 500 }] from by with_unfolding_all rfl] at hinv
  simp [noTransitDb, createDefaultDatabase] at hinv

/-- Claim C9 (amended): a failing `receive` persists nothing and leaves
every collection unchanged — except that, when the product had no inventory
record and the failure is the `InsufficientTransitError` raised for a
product with no positive-remaining transit, the in-memory state has already
gained the lazily created zero-quantity inventory record (appended at the
end of the inventory collection); no transit record or any other collection
is ever modified by a failing call. -/
theorem claim_C9_amended (db : Db) (fid : String) (now : Nat) (pid : String) (q : ℚ)
    (e : ReceiveError)
    (he : (receiveStockForProduct db fid now pid q).2 = .error e) :
    (receiveStockForProduct db fid now pid q).1.suppliers = db.suppliers ∧
    (receiveStockForProduct db fid now pid q).1.purchaseOrders = db.purchaseOrders ∧
    (receiveStockForProduct db fid now pid q).1.poLines = db.poLines ∧
    (receiveStockForProduct db fid now pid q).1.products = db.products ∧
    (receiveStockForProduct db fid now pid q).1.transit = db.transit ∧
    (receiveStockForProduct db fid now pid q).1.invoices = db.invoices ∧
    (receiveStockForProduct db fid now pid q).1.tasks = db.tasks ∧
    ((receiveStockForProduct db fid now pid q).1.inventory = db.inventory ∨
      (e = .insufficientTransitError ∧ storedInventory db pid = none ∧
       (receiveStockForProduct db fid now pid q).1.inventory =
         db.inventory ++
           [{ id := fid, productId := pid, quantityOnHand := 0
              averageCostGBP := 0, lastUpdated := now }])) := by
  by_cases h1 : pid = ""
  · rw [show receiveStockForProduct db fid now pid q = (db, .error .validationError) from by
      unfold receiveStockForProduct; rw [if_pos h1]]
    exact ⟨rfl, rfl, rfl, rfl, rfl, rfl, rfl, Or.inl rfl⟩
  · by_cases h2 : q ≤ 0
    · rw [show receiveStockForProduct db fid now pid q = (db, .error .validationError) from by
        unfold receiveStockForProduct; rw [if_neg h1, if_pos h2]]
      exact ⟨rfl, rfl, rfl, rfl, rfl, rfl, rfl, Or.inl rfl⟩
    · by_cases h3 : (db.products.find? fun p => p.id = pid).isNone
      · rw [show receiveStockForProduct db fid now pid q = (db, .error .notFoundError) from by
          unfold receiveStockForProduct; rw [if_neg h1, if_neg h2, if_pos h3]]
        exact ⟨rfl, rfl, rfl, rfl, rfl, rfl, rfl, Or.inl rfl⟩
      · have h3' : (db.products.find? fun p => p.id = pid).isSome = true := by
          rcases hx : db.products.find? fun p => p.id = pid with _ | p
          · rw [hx] at h3; simp at h3
          · rw [hx]; rfl
        push_neg at h2
        by_cases h4 : receivableSorted db pid = []
        · have heq := receive_insufficient_eq db fid now pid q h1 h2 h3' h4
          rw [heq] at he ⊢
          dsimp only at he ⊢
          injection he with he2
          refine ⟨rfl, rfl, rfl, rfl, rfl, rfl, rfl, ?_⟩
          rcases hinv : storedInventory db pid with _ | r0
          · right
            exact ⟨he2.symm, rfl, rfl⟩
          · left
            rfl
        · have heq := receive_success_eq db fid now pid q h1 h2 h3' h4
          rw [heq] at he
          dsimp only at he
          cases he

theorem claim_C9_amended_witness :
    (receiveStockForProduct noTransitDb "i9" 500 "p1" 1).1.transit =
      noTransitDb.transit :=
  (claim_C9_amended noTransitDb "i9" 500 "p1" 1 .insufficientTransitError
    (by with_unfolding_all rfl)).2.2.2.2.1

theorem fifoWalk_records_productId (pid : String) (now : Nat) (r : ℚ)
    (l : List TransitRecord) (hl : ∀ t ∈ l, t.productId = pid) :
    ∀ u ∈ (fifoWalk now r l).records, u.productId = pid := by
  intro u hu
  have hmem : u.productId ∈ (fifoWalk now r l).records.map fun t => t.productId :=
    List.mem_map_of_mem _ hu
  rw [fifoWalk_records_map_productId] at hmem
  rcases List.mem_map.mp hmem with ⟨t, ht, heq⟩
  rw [← heq]
  exact hl t ht

/-- Claim C10 (frame of a successful receive): only the received product's
inventory record and its transit records can change — suppliers, purchase
orders, PO lines, products (the received one's fields included), invoices,
tasks, and the inventory and transit records of every other product are
untouched. -/
theorem claim_C10 (db : Db) (fid : String) (now : Nat) (pid : String) (q : ℚ)
    (r : ReceiveStockResult)
    (hr : (receiveStockForProduct db fid now pid q).2 = .ok r) :
    (receiveStockForProduct db fid now pid q).1.suppliers = db.suppliers ∧
    (receiveStockForProduct db fid now pid q).1.purchaseOrders = db.purchaseOrders ∧
    (receiveStockForProduct db fid now pid q).1.poLines = db.poLines ∧
    (receiveStockForProduct db fid now pid q).1.products = db.products ∧
    (receiveStockForProduct db fid now pid q).1.invoices = db.invoices ∧
    (receiveStockForProduct db fid now pid q).1.tasks = db.tasks ∧
    ((receiveStockForProduct db fid now pid q).1.inventory.filter
        fun i => decide (i.productId ≠ pid)) =
      db.inventory.filter (fun i => decide (i.productId ≠ pid)) ∧
    ((receiveStockForProduct db fid now pid q).1.transit.filter
        fun t => decide (t.productId ≠ pid)) =
      db.transit.filter fun t => decide (t.productId ≠ pid) := by
  by_cases h1 : pid = ""
  · rw [show receiveStockForProduct db fid now pid q = (db, .error .validationError) from by
      unfold receiveStockForProduct; rw [if_pos h1]] at hr
    cases hr
  by_cases h2 : q ≤ 0
  · rw [show receiveStockForProduct db fid now pid q = (db, .error .validationError) from by
      unfold receiveStockForProduct; rw [if_neg h1, if_pos h2]] at hr
    cases hr
  by_cases h3 : (db.products.find? fun p => p.id = pid).isNone
  · rw [show receiveStockForProduct db fid now pid q = (db, .error .notFoundError) from by
      unfold receiveStockForProduct; rw [if_neg h1, if_neg h2, if_pos h3]] at hr
    cases hr
  have h3' : (db.products.find? fun p => p.id = pid).isSome = true := by
    rcases hx : db.products.find? fun p => p.id = pid with _ | p
    · rw [hx] at h3; simp at h3
    · rw [hx]; rfl
  push_neg at h2
  by_cases h4 : receivableSorted db pid = []
  · rw [receive_insufficient_eq db fid now pid q h1 h2 h3' h4] at hr
    cases hr
  have heq := receive_success_eq db fid now pid q h1 h2 h3' h4
  rw [heq]
  dsimp only
  refine ⟨rfl, rfl, rfl, rfl, rfl, rfl, ?_, ?_⟩
  · -- inventory frame
    rcases hinv : storedInventory db pid with _ | r0
    · simp only [Option.isSome_none, Bool.false_eq_true, if_false, Option.getD_none]
      rw [set_append_length]
      apply filter_append_single_not
      simp
    · have hinv' : db.inventory.find? (fun inv => decide (inv.productId = pid)) = some r0 :=
        hinv
      have hget := find?_get_findIdx (fun inv => decide (inv.productId = pid))
        db.inventory r0 hinv'
      have hr0 : r0.productId = pid := by
        have hp0 := List.find?_some hinv'
        simpa using hp0
      simp only [Option.isSome_some, if_true, Option.getD_some]
      apply filter_set_of_not _ db.inventory _ r0
      · exact hget
      · simp [hr0]
      · simp [hr0]
  · -- transit frame
    apply applyTransitUpdates_filter_not
    exact fifoWalk_records_productId pid now q (receivableSorted db pid)
      (fun t ht => mem_receivableSorted_productId ht)

theorem claim_C10_witness :
    ((receiveStockForProduct frameDb "i1" 300 "p1" 6).1.transit.filter
        fun t => decide (t.productId ≠ "p1")) =
      frameDb.transit.filter fun t => decide (t.productId ≠ "p1") :=
  (claim_C10 frameDb "i1" 300 "p1" 6 exReceiveResult
    (by with_unfolding_all rfl)).2.2.2.2.2.2.2

/-! ## The claims about product matching -/

/-- Claim C4: when a line's trimmed supplier SKU case-insensitively equals
some existing product's primary SKU, supplier SKU, or a barcode, the first
such product in catalog scan order is matched, and the fuzzy description
match is never consulted: the matcher's answer is the same for every
description, however a different product would score on similarity. -/
theorem claim_C4 (products : List Product) (sku : String)
    (hex : ∃ p ∈ products, exactSkuMatch sku.toLower p = true) :
    exactMatchIdx products sku.toLower =
      some (products.findIdx (exactSkuMatch sku.toLower)) ∧
    (∃ hlt : products.findIdx (exactSkuMatch sku.toLower) < products.length,
      exactSkuMatch sku.toLower
        (products.get ⟨products.findIdx (exactSkuMatch sku.toLower), hlt⟩) = true ∧
      ∀ j, j < products.findIdx (exactSkuMatch sku.toLower) →
        ∀ hjl : j < products.length,
          exactSkuMatch sku.toLower (products.get ⟨j, hjl⟩) = false) ∧
    ∀ rawDescription, matchLineIdx products rawDescription (some sku) =
      some (products.findIdx (exactSkuMatch sku.toLower)) := by
  have hne : products.findIdx? (exactSkuMatch sku.toLower) ≠ none := by
    intro hnone
    rw [List.findIdx?_eq_none_iff] at hnone
    rcases hex with ⟨p, hp, hm⟩
    have := hnone p hp
    rw [hm] at this
    cases this
  rcases hfi : products.findIdx? (exactSkuMatch sku.toLower) with _ | i
  · exact absurd hfi hne
  obtain ⟨hlen, hidx⟩ := List.findIdx?_eq_some_iff_findIdx_eq.mp hfi
  subst hidx
  obtain ⟨hlt, hpi, hprev⟩ := List.findIdx?_eq_some_iff_getElem.mp hfi
  refine ⟨hfi, ⟨hlt, ?_, ?_⟩, ?_⟩
  · simpa using hpi
  · intro j hj hjl
    have := hprev j hj
    simpa using this
  · intro rawDescription
    simp [matchLineIdx, exactPhase, exactMatchIdx, hfi]

theorem claim_C4_witness :
    matchLineIdx skuCatalog "Dragon Shield Matte Sleeves Red" (some "DS-red") =
      some (skuCatalog.findIdx (exactSkuMatch "DS-red".toLower)) :=
  (claim_C4 skuCatalog "DS-red"
    (by with_unfolding_all decide)).2.2 "Dragon Shield Matte Sleeves Red"

theorem resolveProduct_transit (genId : Nat → String) (now : Nat) (supplierId : String)
    (st : SyncState) (rawDescription : String) (supplierSku : Option String) :
    (resolveProduct genId now supplierId st rawDescription supplierSku).1.transit =
      st.transit := by
  rcases h : matchLineIdx st.products rawDescription supplierSku with _ | i <;>
    simp [resolveProduct, h]

theorem resolveProduct_transitCreated (genId : Nat → String) (now : Nat)
    (supplierId : String) (st : SyncState) (rawDescription : String)
    (supplierSku : Option String) :
    (resolveProduct genId now supplierId st rawDescription supplierSku).1.transitCreated =
      st.transitCreated := by
  rcases h : matchLineIdx st.products rawDescription supplierSku with _ | i <;>
    simp [resolveProduct, h]

theorem resolveProduct_counted (genId : Nat → String) (now : Nat) (supplierId : String)
    (st : SyncState) (rawDescription : String) (supplierSku : Option String) :
    (resolveProduct genId now supplierId st rawDescription supplierSku).1.productsMatched +
      (resolveProduct genId now supplierId st rawDescription supplierSku).1.productsCreated =
      st.productsMatched + st.productsCreated + 1 := by
  rcases h : matchLineIdx st.products rawDescription supplierSku with _ | i <;>
    simp [resolveProduct, h] <;> omega

/-- Claim C8: a line with a non-blank description whose sanitized quantity
is non-positive creates no transit record and does not increment
`transitCreated`, but product matching or creation (with the alias and
supplier side effects of `resolveProduct`) still happens and is still
counted in exactly one of `productsMatched` or `productsCreated`. -/
theorem claim_C8 (genId : Nat → String) (now : Nat)
    (supplierId purchaseOrderId : String) (st : SyncState) (line : POLine)
    (hdesc : line.description.trim ≠ "")
    (hq : sanitizeQuantity line.quantity ≤ 0) :
    processLine genId now supplierId purchaseOrderId st line =
      (resolveProduct genId now supplierId st line.description.trim
        (trimOptSku line.supplierSku)).1 ∧
    (processLine genId now supplierId purchaseOrderId st line).transit = st.transit ∧
    (processLine genId now supplierId purchaseOrderId st line).transitCreated =
      st.transitCreated ∧
    (processLine genId now supplierId purchaseOrderId st line).productsMatched +
      (processLine genId now supplierId purchaseOrderId st line).productsCreated =
      st.productsMatched + st.productsCreated + 1 := by
  have heq : processLine genId now supplierId purchaseOrderId st line =
      (resolveProduct genId now supplierId st line.description.trim
        (trimOptSku line.supplierSku)).1 := by
    simp only [processLine, if_neg hdesc, if_pos hq]
  refine ⟨heq, ?_, ?_, ?_⟩
  · rw [heq, resolveProduct_transit]
  · rw [heq, resolveProduct_transitCreated]
  · rw [heq, resolveProduct_counted]

theorem claim_C8_witness :
    (processLine genIdDefault 700 "s1" "po1" exSyncState zeroQtyLine).transit =
      exSyncState.transit ∧
    (processLine genIdDefault 700 "s1" "po1" exSyncState zeroQtyLine).productsMatched +
      (processLine genIdDefault 700 "s1" "po1" exSyncState zeroQtyLine).productsCreated =
      exSyncState.productsMatched + exSyncState.productsCreated + 1 :=
  ⟨(claim_C8 genIdDefault 700 "s1" "po1" exSyncState zeroQtyLine
      (by with_unfolding_all decide) (by with_unfolding_all decide)).2.1,
   (claim_C8 genIdDefault 700 "s1" "po1" exSyncState zeroQtyLine
      (by with_unfolding_all decide) (by with_unfolding_all decide)).2.2.2⟩

/-- Claim C7 counterexample: the sync sanitization keeps `+Infinity`.
`typeof Infinity === 'number' && Infinity > 0` holds in JS, so line 623
passes `Infinity` through instead of the 0 the claim requires for a
non-finite input, and likewise `Infinity >= 0` on line 624 — unlike
`receiveStockForProduct`, the sync path never checks `Number.isFinite`. -/
theorem claim_C7_counterexample :
    sanitizeQuantityJS JSNum.posInf = JSNum.posInf ∧
    sanitizeQuantityJS JSNum.posInf ≠ JSNum.num 0 ∧
    sanitizeUnitCostJS JSNum.posInf = JSNum.posInf ∧
    sanitizeUnitCostJS JSNum.posInf ≠ JSNum.num 0 := by
  refine ⟨rfl, ?_, rfl, ?_⟩ <;> intro h <;> cases h

/-- Claim C7 (amended): quantity is sanitized to 0 unless the JS comparison
`quantity > 0` holds (`NaN` and `-Infinity` become 0, but `+Infinity`
passes and is kept), the unit cost is sanitized to 0 unless `cost >= 0`
holds (`NaN` becomes 0, `+Infinity` is kept), finite costs being rounded to
4 decimal places; for a line with a positive (finite) quantity, the created
TransitRecord carries exactly the sanitized quantity as both `quantity` and
`remainingQuantity`, the sanitized rounded cost, and status `in_transit`. -/
theorem claim_C7_amended (genId : Nat → String) (now : Nat)
    (supplierId purchaseOrderId : String) (st : SyncState) (line : POLine)
    (hdesc : line.description.trim ≠ "") (hq : 0 < line.quantity) :
    (∃ rec : TransitRecord,
      (processLine genId now supplierId purchaseOrderId st line).transit =
        (resolveProduct genId now supplierId st line.description.trim
          (trimOptSku line.supplierSku)).1.transit ++ [rec] ∧
      rec.quantity = sanitizeQuantity line.quantity ∧
      rec.remainingQuantity = sanitizeQuantity line.quantity ∧
      rec.unitCostGBP = sanitizeUnitCost line.unitCostExVAT ∧
      rec.status = .in_transit) ∧
    (∀ x : ℚ, sanitizeQuantityJS (.num x) = .num (sanitizeQuantity x)) ∧
    (∀ x : ℚ, sanitizeUnitCostJS (.num x) = .num (sanitizeUnitCost x)) ∧
    sanitizeQuantityJS .nan = .num 0 ∧
    sanitizeQuantityJS .negInf = .num 0 ∧
    sanitizeQuantityJS .posInf = .posInf ∧
    sanitizeUnitCostJS .nan = .num 0 ∧
    sanitizeUnitCostJS .negInf = .num 0 ∧
    sanitizeUnitCostJS .posInf = .posInf := by
  have hsan : sanitizeQuantity line.quantity = line.quantity := if_pos hq
  have hq' : ¬ sanitizeQuantity line.quantity ≤ 0 := by
    rw [hsan]
    exact not_le.mpr hq
  refine ⟨?_, ?_, ?_, rfl, rfl, rfl, rfl, rfl, rfl⟩
  · refine ⟨{ id := genId (resolveProduct genId now supplierId st line.description.trim
                (trimOptSku line.supplierSku)).1.fresh
              productId := (resolveProduct genId now supplierId st line.description.trim
                (trimOptSku line.supplierSku)).2
              purchaseOrderId := purchaseOrderId, poLineId := line.id
              supplierId := supplierId, quantity := sanitizeQuantity line.quantity
              remainingQuantity := sanitizeQuantity line.quantity
              unitCostGBP := sanitizeUnitCost line.unitCostExVAT
              status := .in_transit, createdAt := now, updatedAt := now }, ?_, rfl, rfl, rfl, rfl⟩
    simp only [processLine, if_neg hdesc, if_neg hq']
  · intro x
    by_cases hx : 0 < x
    · simp [sanitizeQuantityJS, JSNum.gtZero, sanitizeQuantity, hx]
    · simp [sanitizeQuantityJS, JSNum.gtZero, sanitizeQuantity, hx]
  · intro x
    by_cases hx : 0 ≤ x
    · simp [sanitizeUnitCostJS, JSNum.geZero, JSNum.toFixed4, sanitizeUnitCost, hx]
    · simp [sanitizeUnitCostJS, JSNum.geZero, JSNum.toFixed4, sanitizeUnitCost, hx]

theorem claim_C7_amended_witness :
    sanitizeQuantityJS JSNum.nan = JSNum.num 0 ∧
    sanitizeUnitCostJS JSNum.nan = JSNum.num 0 :=
  ⟨(claim_C7_amended genIdDefault 700 "s1" "po1" exSyncState
      { zeroQtyLine with quantity := 3 }
      (by with_unfolding_all decide) (by norm_num)).2.2.2.1,
   (claim_C7_amended genIdDefault 700 "s1" "po1" exSyncState
      { zeroQtyLine with quantity := 3 }
      (by with_unfolding_all decide) (by norm_num)).2.2.2.2.2.2.1⟩

/-! ## The transit status invariant (claim C3) -/

theorem freshTransit_ok {t : TransitRecord} (hq : 0 < t.quantity)
    (hrem : t.remainingQuantity = t.quantity) (hst : t.status = .in_transit) :
    transitStatusOK t := by
  refine ⟨by rw [hrem]; exact hq.le, by rw [hrem], ?_, ?_, ?_⟩
  · rw [hst, hrem]
    constructor
    · intro hs; simp at hs
    · intro h0; exact absurd (h0 ▸ hq) (lt_irrefl 0)
  · rw [hst, hrem]
    constructor
    · intro hs; simp at hs
    · intro hcon; exact absurd hcon.2 (lt_irrefl _)
  · rw [hst, hrem]
    exact ⟨fun _ => rfl, fun _ => rfl⟩

theorem processLine_transit_ok (genId : Nat → String) (now : Nat)
    (supplierId purchaseOrderId : String) (st : SyncState) (line : POLine)
    (h : ∀ t ∈ st.transit, transitStatusOK t) :
    ∀ t ∈ (processLine genId now supplierId purchaseOrderId st line).transit,
      transitStatusOK t := by
  unfold processLine
  by_cases hdesc : line.description.trim = ""
  · rw [if_pos hdesc]; exact h
  · rw [if_neg hdesc]
    by_cases hq : sanitizeQuantity line.quantity ≤ 0
    · simp only [if_pos hq]
      rw [resolveProduct_transit]
      exact h
    · simp only [if_neg hq]
      intro t ht
      rw [resolveProduct_transit] at ht
      rcases List.mem_append.mp ht with hmem | hmem
      · exact h t hmem
      · rcases List.mem_singleton.mp hmem with rfl
        push_neg at hq
        exact freshTransit_ok hq rfl rfl

theorem sync_preserves_transit_ok (db : Db) (genId : Nat → String)
    (fresh0 now : Nat) (supplierId purchaseOrderId : String) (poLines : List POLine)
    (h : dbTransitOK db) :
    dbTransitOK (syncInventoryFromPurchaseOrder db genId fresh0 now
      supplierId purchaseOrderId poLines).1 := by
  have hfold : ∀ (lines : List POLine) (st : SyncState),
      (∀ t ∈ st.transit, transitStatusOK t) →
      ∀ t ∈ (lines.foldl (processLine genId now supplierId purchaseOrderId) st).transit,
        transitStatusOK t := by
    intro lines
    induction lines with
    | nil => intro st hst; exact hst
    | cons line rest ih =>
      intro st hst
      exact ih _ (processLine_transit_ok genId now supplierId purchaseOrderId st line hst)
  intro t ht
  exact hfold poLines
    { products := db.products, transit := db.transit, productsCreated := 0
      productsMatched := 0, transitCreated := 0, fresh := fresh0 } h t ht

theorem receive_preserves_transit_ok (db : Db) (fid : String) (now : Nat)
    (pid : String) (q : ℚ) (h : dbTransitOK db) :
    dbTransitOK (receiveStockForProduct db fid now pid q).1 := by
  have hcore : ∀ w : FifoWalkResult, (∀ u ∈ w.records, transitStatusOK u) →
      ∀ t ∈ applyTransitUpdates pid w.records db.transit, transitStatusOK t := by
    intro w hw t ht
    rcases List.mem_map.mp ht with ⟨t0, ht0, rfl⟩
    unfold updateReceivable
    by_cases hr : isReceivable pid t0
    · rw [if_pos hr]
      rcases hfind : w.records.find? fun u => u.id = t0.id with _ | u
      · rw [hfind, Option.getD_none]
        exact h t0 ht0
      · rw [hfind, Option.getD_some]
        exact hw u (List.mem_of_find?_eq_some hfind)
    · rw [if_neg hr]
      exact h t0 ht0
  by_cases h1 : pid = ""
  · rw [show receiveStockForProduct db fid now pid q = (db, .error .validationError) from by
      unfold receiveStockForProduct; rw [if_pos h1]]
    exact h
  by_cases h2 : q ≤ 0
  · rw [show receiveStockForProduct db fid now pid q = (db, .error .validationError) from by
      unfold receiveStockForProduct; rw [if_neg h1, if_pos h2]]
    exact h
  by_cases h3 : (db.products.find? fun p => p.id = pid).isNone
  · rw [show receiveStockForProduct db fid now pid q = (db, .error .notFoundError) from by
      unfold receiveStockForProduct; rw [if_neg h1, if_neg h2, if_pos h3]]
    exact h
  have h3' : (db.products.find? fun p => p.id = pid).isSome = true := by
    rcases hx : db.products.find? fun p => p.id = pid with _ | p
    · rw [hx] at h3; simp at h3
    · rw [hx]; rfl
  push_neg at h2
  have hwok : ∀ u ∈ (fifoWalk now q (receivableSorted db pid)).records, transitStatusOK u :=
    fifoWalk_records_ok now q _ fun t ht => h t (mem_receivableSorted.mp ht).1
  by_cases h4 : receivableSorted db pid = []
  · rw [receive_insufficient_eq db fid now pid q h1 h2 h3' h4]
    exact h
  · rw [receive_success_eq db fid now pid q h1 h2 h3' h4]
    dsimp only
    intro t ht
    exact hcore _ hwok t ht

/-- Claim C3: in every state reachable from the empty database by sync and
receive operations, every TransitRecord satisfies `0 ≤ remainingQuantity ≤
quantity`, and its status is exactly the pure function of
`remainingQuantity` versus `quantity`: `received` iff the remainder is 0,
`partially_received` iff it lies strictly between 0 and `quantity`,
`in_transit` iff it equals `quantity`. -/
theorem claim_C3 (db : Db) (h : Reachable db) : dbTransitOK db := by
  induction h with
  | init => intro t ht; simp [createDefaultDatabase] at ht
  | sync db genId fresh0 now supplierId purchaseOrderId poLines hdb ih =>
    exact sync_preserves_transit_ok db genId fresh0 now supplierId purchaseOrderId poLines ih
  | receive db fid now pid q hdb ih =>
    exact receive_preserves_transit_ok db fid now pid q ih

theorem claim_C3_witness :
    dbTransitOK (syncInventoryFromPurchaseOrder createDefaultDatabase genIdDefault
      0 100 "s1" "po1" [{ zeroQtyLine with quantity := 3 }]).1 :=
  claim_C3 _ (Reachable.sync createDefaultDatabase genIdDefault 0 100 "s1" "po1"
    [{ zeroQtyLine with quantity := 3 }] Reachable.init)

/-! ## The fuzzy scan (claim C5) -/

theorem fuzzyScan_spec (lt : List String) (ps : List Product) :
    ∀ (i : Nat) (b : ℚ) (bi : Option Nat),
      b ≤ (fuzzyScan lt ps i b bi).1 ∧
      (∀ k (hk : k < ps.length),
        candidateScore lt (ps.get ⟨k, hk⟩) ≤ (fuzzyScan lt ps i b bi).1) ∧
      (((fuzzyScan lt ps i b bi).2 = bi ∧ (fuzzyScan lt ps i b bi).1 = b) ∨
        ∃ k, ∃ hk : k < ps.length,
          (fuzzyScan lt ps i b bi).2 = some (i + k) ∧
          (fuzzyScan lt ps i b bi).1 = candidateScore lt (ps.get ⟨k, hk⟩) ∧
          b < (fuzzyScan lt ps i b bi).1 ∧
          ∀ m, m < k → ∀ hml : m < ps.length,
            candidateScore lt (ps.get ⟨m, hml⟩) < (fuzzyScan lt ps i b bi).1) := by
  induction ps with
  | nil =>
    intro i b bi
    exact ⟨le_refl b, fun k hk => absurd hk (Nat.not_lt_zero k), Or.inl ⟨rfl, rfl⟩⟩
  | cons p ps ih =>
    intro i b bi
    by_cases hlt : b < candidateScore lt p
    · have heq : fuzzyScan lt (p :: ps) i b bi =
          fuzzyScan lt ps (i + 1) (candidateScore lt p) (some i) := by
        simp [fuzzyScan, hlt]
      rw [heq]
      obtain ⟨ih1, ih2, ih3⟩ := ih (i + 1) (candidateScore lt p) (some i)
      refine ⟨le_trans hlt.le ih1, ?_, ?_⟩
      · intro k hk
        cases k with
        | zero => exact ih1
        | succ m => exact ih2 m (Nat.lt_of_succ_lt_succ hk)
      · rcases ih3 with ⟨hbi, hb⟩ | ⟨k, hk, h2, h1, hblt, hprev⟩
        · right
          refine ⟨0, Nat.succ_pos _, ?_, ?_, ?_, ?_⟩
          · rw [hbi, Nat.add_zero]
          · exact hb
          · rw [hb]; exact hlt
          · intro m hm hml; exact absurd hm (Nat.not_lt_zero m)
        · right
          refine ⟨k + 1, Nat.succ_lt_succ hk, ?_, h1, lt_trans hlt hblt, ?_⟩
          · rw [h2]; congr 1; omega
          · intro m hm hml
            cases m with
            | zero => exact hblt
            | succ n => exact hprev n (Nat.lt_of_succ_lt_succ hm) (Nat.lt_of_succ_lt_succ hml)
    · have heq : fuzzyScan lt (p :: ps) i b bi = fuzzyScan lt ps (i + 1) b bi := by
        simp [fuzzyScan, hlt]
      rw [heq]
      obtain ⟨ih1, ih2, ih3⟩ := ih (i + 1) b bi
      refine ⟨ih1, ?_, ?_⟩
      · intro k hk
        cases k with
        | zero => exact le_trans (not_lt.mp hlt) ih1
        | succ m => exact ih2 m (Nat.lt_of_succ_lt_succ hk)
      · rcases ih3 with ⟨hbi, hb⟩ | ⟨k, hk, h2, h1, hblt, hprev⟩
        · exact Or.inl ⟨hbi, hb⟩
        · right
          refine ⟨k + 1, Nat.succ_lt_succ hk, ?_, h1, hblt, ?_⟩
          · rw [h2]; congr 1; omega
          · intro m hm hml
            cases m with
            | zero => exact lt_of_le_of_lt (not_lt.mp hlt) hblt
            | succ n => exact hprev n (Nat.lt_of_succ_lt_succ hm) (Nat.lt_of_succ_lt_succ hml)

/-- Claim C5: when the exact-SKU phase finds nothing, the line is matched to
the candidate with the strictly highest similarity score — the maximum over
its name's and each alias's normalized tokens, first-found winning ties —
exactly when that best score is at least 0.5; when the best score is below
0.5 no product is matched, and a new product is created and appended whose
primary SKU and supplier SKU both equal the line's (possibly null) supplier
SKU, whose aliases are exactly the one-element list holding the raw
description, and which has no barcodes. -/
theorem claim_C5 (genId : Nat → String) (now : Nat) (supplierId : String)
    (st : SyncState) (rawDescription : String) (supplierSku : Option String)
    (hexact : exactPhase st.products supplierSku = none) :
    (1 / 2 ≤ (bestFuzzy (normalizeTextForMatch rawDescription) st.products).1 →
      ∃ k, ∃ hk : k < st.products.length,
        (bestFuzzy (normalizeTextForMatch rawDescription) st.products).2 = some k ∧
        matchLineIdx st.products rawDescription supplierSku = some k ∧
        candidateScore (normalizeTextForMatch rawDescription) (st.products.get ⟨k, hk⟩) =
          (bestFuzzy (normalizeTextForMatch rawDescription) st.products).1 ∧
        (∀ m (hm : m < st.products.length),
          candidateScore (normalizeTextForMatch rawDescription) (st.products.get ⟨m, hm⟩) ≤
            (bestFuzzy (normalizeTextForMatch rawDescription) st.products).1) ∧
        (∀ m, m < k → ∀ hml : m < st.products.length,
          candidateScore (normalizeTextForMatch rawDescription) (st.products.get ⟨m, hml⟩) <
            (bestFuzzy (normalizeTextForMatch rawDescription) st.products).1)) ∧
    ((bestFuzzy (normalizeTextForMatch rawDescription) st.products).1 < 1 / 2 →
      matchLineIdx st.products rawDescription supplierSku = none ∧
      (resolveProduct genId now supplierId st rawDescription supplierSku).1.products =
        st.products ++
          [newProductFromLine (genId st.fresh) rawDescription supplierSku supplierId now] ∧
      (newProductFromLine (genId st.fresh) rawDescription supplierSku supplierId
        now).primarySku = supplierSku ∧
      (newProductFromLine (genId st.fresh) rawDescription supplierSku supplierId
        now).supplierSku = supplierSku ∧
      (newProductFromLine (genId st.fresh) rawDescription supplierSku supplierId
        now).aliases = [rawDescription] ∧
      (newProductFromLine (genId st.fresh) rawDescription supplierSku supplierId
        now).barcodes = ([] : List String)) := by
  obtain ⟨h1s, h2s, h3s⟩ :=
    fuzzyScan_spec (normalizeTextForMatch rawDescription) st.products 0 0 none
  have hbf : bestFuzzy (normalizeTextForMatch rawDescription) st.products =
      fuzzyScan (normalizeTextForMatch rawDescription) st.products 0 0 none := rfl
  constructor
  · intro hge
    rw [hbf] at hge
    rcases h3s with ⟨hbi, hb⟩ | ⟨k, hk, h2, h1, hblt, hprev⟩
    · rw [hb] at hge
      norm_num at hge
    · refine ⟨k, hk, ?_, ?_, ?_, ?_, ?_⟩
      · rw [hbf, h2, Nat.zero_add]
      · unfold matchLineIdx
        rw [hexact]
        simp only [hbf]
        rw [if_neg (not_lt.mpr hge), h2, Nat.zero_add]
      · rw [hbf, h1]
      · intro m hm
        rw [hbf]
        exact h2s m hm
      · intro m hm hml
        rw [hbf]
        exact hprev m hm hml
  · intro hlow
    have hnone : matchLineIdx st.products rawDescription supplierSku = none := by
      unfold matchLineIdx
      rw [hexact]
      simp only [hbf] at hlow ⊢
      rw [if_pos hlow]
    refine ⟨hnone, ?_, rfl, rfl, rfl, rfl⟩
    simp [resolveProduct, hnone]

theorem claim_C5_witness :
    matchLineIdx skuCatalog "Yugioh Rarity Collection II" none = none ∧
    (resolveProduct genIdDefault 800 "s1" exSyncState "Yugioh Rarity Collection II"
      none).1.products =
      exSyncState.products ++
        [newProductFromLine (genIdDefault exSyncState.fresh) "Yugioh Rarity Collection II"
          none "s1" 800] ∧
    (newProductFromLine (genIdDefault exSyncState.fresh) "Yugioh Rarity Collection II"
      none "s1" 800).primarySku = none ∧
    (newProductFromLine (genIdDefault exSyncState.fresh) "Yugioh Rarity Collection II"
      none "s1" 800).supplierSku = none ∧
    (newProductFromLine (genIdDefault exSyncState.fresh) "Yugioh Rarity Collection II"
      none "s1" 800).aliases = ["Yugioh Rarity Collection II"] ∧
    (newProductFromLine (genIdDefault exSyncState.fresh) "Yugioh Rarity Collection II"
      none "s1" 800).barcodes = ([] : List String) :=
  (claim_C5 genIdDefault 800 "s1" exSyncState "Yugioh Rarity Collection II" none
    rfl).2 (by with_unfolding_all decide)

/-! ## Unit costs of transit records are non-negative in reachable states
(so the cost hypothesis of `claim_C1` holds on every real state) -/

theorem roundTo4_nonneg {q : ℚ} (h : 0 ≤ q) : 0 ≤ roundTo4 q := by
  unfold roundTo4
  apply div_nonneg _ (by norm_num)
  have : (0 : ℤ) ≤ (q * 10000 + 1 / 2).floor := by
    apply Rat.le_floor.mpr
    push_cast
    positivity
  exact_mod_cast this

theorem sanitizeUnitCost_nonneg (c : ℚ) : 0 ≤ sanitizeUnitCost c := by
  unfold sanitizeUnitCost
  split
  · exact roundTo4_nonneg (by assumption)
  · exact le_refl 0

theorem fifoWalk_records_map_unitCost (now : Nat) (r : ℚ) (l : List TransitRecord) :
    ((fifoWalk now r l).records.map fun t => t.unitCostGBP) =
      l.map fun t => t.unitCostGBP := by
  induction l generalizing r with
  | nil => rfl
  | cons t rest ih =>
    by_cases h1 : r ≤ 0
    · simp [fifoWalk, if_pos h1]
    · by_cases h2 : t.remainingQuantity ≤ 0
      · simpa [fifoWalk, if_neg h1, if_pos h2] using ih r
      · simpa [fifoWalk, if_neg h1, if_neg h2] using ih (r - min r t.remainingQuantity)

theorem fifoWalk_records_cost_nonneg (now : Nat) (r : ℚ) (l : List TransitRecord)
    (h : ∀ t ∈ l, 0 ≤ t.unitCostGBP) :
    ∀ u ∈ (fifoWalk now r l).records, 0 ≤ u.unitCostGBP := by
  intro u hu
  have hmem : u.unitCostGBP ∈ (fifoWalk now r l).records.map fun t => t.unitCostGBP :=
    List.mem_map_of_mem _ hu
  rw [fifoWalk_records_map_unitCost] at hmem
  rcases List.mem_map.mp hmem with ⟨t, ht, heq⟩
  rw [← heq]
  exact h t ht

/-- In every reachable state, every transit record's unit cost is
non-negative: sync creates records with a sanitized non-negative cost and
the receive loop never changes the cost field — so the cost hypothesis of
`claim_C1` is satisfied by every state the system can actually be in. -/
theorem transit_cost_nonneg (db : Db) (h : Reachable db) :
    ∀ t ∈ db.transit, 0 ≤ t.unitCostGBP := by
  induction h with
  | init => intro t ht; simp [createDefaultDatabase] at ht
  | sync db genId fresh0 now supplierId purchaseOrderId poLines hdb ih =>
    have hfold : ∀ (lines : List POLine) (st : SyncState),
        (∀ t ∈ st.transit, 0 ≤ t.unitCostGBP) →
        ∀ t ∈ (lines.foldl (processLine genId now supplierId purchaseOrderId) st).transit,
          0 ≤ t.unitCostGBP := by
      intro lines
      induction lines with
      | nil => intro st hst; exact hst
      | cons line rest ihl =>
        intro st hst
        apply ihl
        unfold processLine
        by_cases hdesc : line.description.trim = ""
        · rw [if_pos hdesc]; exact hst
        · rw [if_neg hdesc]
          by_cases hq : sanitizeQuantity line.quantity ≤ 0
          · simp only [if_pos hq]
            rw [resolveProduct_transit]
            exact hst
          · simp only [if_neg hq]
            intro t ht
            rw [resolveProduct_transit] at ht
            rcases List.mem_append.mp ht with hmem | hmem
            · exact hst t hmem
            · rcases List.mem_singleton.mp hmem with rfl
              exact sanitizeUnitCost_nonneg _
    intro t ht
    exact hfold poLines
      { products := db.products, transit := db.transit, productsCreated := 0
        productsMatched := 0, transitCreated := 0, fresh := fresh0 } ih t ht
  | receive db fid now pid q hdb ih =>
    have hcore : ∀ w : FifoWalkResult, (∀ u ∈ w.records, 0 ≤ u.unitCostGBP) →
        ∀ t ∈ applyTransitUpdates pid w.records db.transit, 0 ≤ t.unitCostGBP := by
      intro w hw t ht
      rcases List.mem_map.mp ht with ⟨t0, ht0, rfl⟩
      unfold updateReceivable
      by_cases hr : isReceivable pid t0
      · rw [if_pos hr]
        rcases hfind : w.records.find? fun u => u.id = t0.id with _ | u
        · rw [hfind, Option.getD_none]
          exact ih t0 ht0
        · rw [hfind, Option.getD_some]
          exact hw u (List.mem_of_find?_eq_some hfind)
      · rw [if_neg hr]
        exact ih t0 ht0
    by_cases h1 : pid = ""
    · rw [show receiveStockForProduct db fid now pid q = (db, .error .validationError) from by
        unfold receiveStockForProduct; rw [if_pos h1]]
      exact ih
    by_cases h2 : q ≤ 0
    · rw [show receiveStockForProduct db fid now pid q = (db, .error .validationError) from by
        unfold receiveStockForProduct; rw [if_neg h1, if_pos h2]]
      exact ih
    by_cases h3 : (db.products.find? fun p => p.id = pid).isNone
    · rw [show receiveStockForProduct db fid now pid q = (db, .error .notFoundError) from by
        unfold receiveStockForProduct; rw [if_neg h1, if_neg h2, if_pos h3]]
      exact ih
    have h3' : (db.products.find? fun p => p.id = pid).isSome = true := by
      rcases hx : db.products.find? fun p => p.id = pid with _ | p
      · rw [hx] at h3; simp at h3
      · rw [hx]; rfl
    push_neg at h2
    have hwc : ∀ u ∈ (fifoWalk now q (receivableSorted db pid)).records,
        0 ≤ u.unitCostGBP :=
      fifoWalk_records_cost_nonneg now q _ fun t ht =>
        ih t (mem_receivableSorted.mp ht).1
    by_cases h4 : receivableSorted db pid = []
    · rw [receive_insufficient_eq db fid now pid q h1 h2 h3' h4]
      exact ih
    · rw [receive_success_eq db fid now pid q h1 h2 h3' h4]
      dsimp only
      intro t ht
      exact hcore _ hwc t ht

end EternaCards